import Mathlib

/-!
# tfc-delete-workflow: the orchestrator of `main.go`

A shallow embedding of `main.go`: the program resolves its configuration
(organization, workspace, token), builds a client, looks the workspace up,
creates a destroy run, polls the run and deletes the workspace.

The program talks to the outside through the command line, the environment,
the `go-tfe` client and the `log` and `time` packages.  The embedding makes
these explicit:

* the command line is the list of arguments after the program name, read by
  `flagParse` as `flag.Parse` of the Go standard library reads it (usage and exit
  status 0 for `-h` and `-help`, exit status 2 for an argument it rejects);
* the process environment is a function from variable names to optional values
  (`os.LookupEnv`);
* the remote service is a `World`: for every call of the client library the
  answer it gives, an error string standing for a non-nil `error`;
* every observable action of the program is an `Event` appended to a trace, and
  `log.Fatal`/`log.Fatalf` end the run with a `Fatal`.

`main` is the program from line 30 on, for the flag values the parse left;
`program` is the whole of it, from the command line.

Integers: `numberOfIterations` never exceeds 361 and the logged product never
exceeds 3600, so Go's 64-bit `int` is modelled by `Nat` without wrap-around.
-/

namespace TfcDelete

/-! ## Constants -/

/-- Line 14 of `main.go`. -/
def ENV_TERRAFORM_CLOUD_TOKEN : String := "TERRAFORM_CLOUD_TOKEN"

/-- Line 15 of `main.go`. -/
def ENV_TERRAFORM_CLOUD_ORGANIZATION : String := "TERRAFORM_CLOUD_ORGANIZATION"

/-- Line 16 of `main.go`. -/
def ENV_TERRAFORM_CLOUD_WORKSPACE : String := "TERRAFORM_CLOUD_WORKSPACE"

/-- The type `tfe.RunStatus` of the client library is a string type. -/
abbrev RunStatus := String

/-- The constant `tfe.RunApplied` of the client library. -/
def RunApplied : RunStatus := "applied"

/-- The constant `tfe.RunErrored` of the client library. -/
def RunErrored : RunStatus := "errored"

/-- Line 84: `sleepTimeBetweenIterations = 10`. -/
def sleepTimeBetweenIterations : Nat := 10

/-- Line 85: `maxIterations = 360`. -/
def maxIterations : Nat := 360

/-! ## Inputs -/

/-- The two string flags registered in `init` (lines 22-25), after `flag.Parse`;
a flag that is not given keeps its default, the empty string. -/
structure Flags where
  organization : String
  workspace : String
deriving DecidableEq, Repr

/-- The process environment: `os.LookupEnv`. -/
abbrev Environ := String → Option String

/-- The function `os.Getenv`: the value of the variable, empty when unset. -/
def Getenv (env : Environ) (key : String) : String :=
  (env key).getD ""

/-- Answer of a call of the client library: a value, or a non-nil `error`. -/
inductive Reply (α : Type) where
  | ok (value : α)
  | error (err : String)
deriving DecidableEq, Repr

/-- The remote service as seen through the client library.  Of a workspace and
of a run only the part the program uses is kept: the workspace handle is passed
on unchanged, of the created run the `ID`, of a read run the `Status`.
`runsRead id k` is the answer to the `k`-th (from 0) call of `Runs.Read`. -/
structure World where
  newClient : String → Reply Unit
  workspacesRead : String → String → Reply String
  runsCreate : String → Reply String
  runsRead : String → Nat → Reply RunStatus
  workspacesDelete : String → String → Reply Unit

/-! ## Observations -/

/-- The observable actions of the program, in the order of the source. -/
inductive Event where
  /-- A call of `log.Println`. -/
  | println (msg : String)
  /-- The call `log.Printf(format, value)` of line 101. -/
  | printf (format : String) (value : Nat)
  /-- The call `tfe.NewClient` with the token of the configuration, line 60. -/
  | newClient (token : String) (reply : Reply Unit)
  /-- The call `client.Workspaces.Read`, line 67. -/
  | workspacesRead (organization workspace : String) (reply : Reply String)
  /-- The call `client.Runs.Create` for a workspace handle, line 73. -/
  | runsCreate (workspace : String) (reply : Reply String)
  /-- The call `client.Runs.Read`, line 87. -/
  | runsRead (runID : String) (reply : Reply RunStatus)
  /-- The call `time.Sleep` with a number of seconds, line 102. -/
  | sleep (seconds : Nat)
  /-- The call `client.Workspaces.Delete`, line 112. -/
  | workspacesDelete (organization workspace : String) (reply : Reply Unit)
deriving DecidableEq, Repr

/-- The two ways the program ends through the `log` package, both followed by
`os.Exit(1)`. -/
inductive Fatal where
  /-- The call `log.Fatalf(format, arg)`. -/
  | fatalf (format : String) (arg : String)
  /-- The call `log.Fatal(err)` with the non-nil error of a client call. -/
  | fatalErr (err : String)
  /-- The call `log.Fatal(msg)` with a string, line 106. -/
  | fatal (msg : String)
deriving DecidableEq, Repr

/-- A finished piece of execution: the events in order, and how it ended:
`none` when control ran off its end, `some f` after a fatal log call. -/
structure Outcome where
  trace : List Event
  fatal : Option Fatal
deriving DecidableEq, Repr

/-- The exit status of the process: 0 when `main` returns, 1 after `log.Fatal`. -/
def Outcome.exitStatus (o : Outcome) : Nat :=
  match o.fatal with
  | none => 0
  | some _ => 1

/-- Events of a first piece of execution put before an outcome. -/
def Outcome.after (es : List Event) (o : Outcome) : Outcome :=
  ⟨es ++ o.trace, o.fatal⟩

/-! ## Messages -/

def msgNoOrganization : String :=
  "No organization name provided as input argument, will fall back to environment variable"

def fmtOrganization : String :=
  "The organization name must be provided either as an input parameter or in the %s environment variable"

def msgOrganizationRead : String := "Organization name read from environment variable"

def msgNoWorkspace : String :=
  "No workspace name provided as input argument, will fall back to environment variable"

def fmtWorkspace : String :=
  "A workspace name must be provided either as an input parameter or in the %s environment variable"

def msgWorkspaceRead : String := "Workspace name read from environment variable"

def fmtToken : String := "%s environment variable must be set with a valid token"

def msgFinished : String := "Destroy plan finished!"

def fmtErrored : String :=
  "Could not destroy environment, check Terraform Cloud for status: %v"

def fmtDestroying : String := "Destroying ... (%d s)"

def msgTimeout : String :=
  "Destroy plan took more time than expected, please check status in Terraform Cloud"

def msgDeleting : String := "Deleting workspace"

/-- The fatal end of line 34. -/
def fatalOrganization : Fatal := .fatalf fmtOrganization ENV_TERRAFORM_CLOUD_ORGANIZATION

/-- The fatal end of line 44. -/
def fatalWorkspace : Fatal := .fatalf fmtWorkspace ENV_TERRAFORM_CLOUD_WORKSPACE

/-- The fatal end of line 52. -/
def fatalToken : Fatal := .fatalf fmtToken ENV_TERRAFORM_CLOUD_TOKEN

/-- The fatal end of line 98; `err` is nil there and `%v` prints it as `<nil>`. -/
def fatalErrored : Fatal := .fatalf fmtErrored "<nil>"

/-- The fatal end of line 106. -/
def fatalTimeout : Fatal := .fatal msgTimeout

/-! ## The program -/

/-- Lines 30-38: the organization name, from the flag or from the environment.
The events of the block, and the name or the fatal end. -/
def resolveOrganization (organizationName : String) (env : Environ) :
    List Event × Except Fatal String :=
  if organizationName = "" then
    match env ENV_TERRAFORM_CLOUD_ORGANIZATION with
    | none => ([.println msgNoOrganization], .error fatalOrganization)
    | some _ =>
      ([.println msgNoOrganization, .println msgOrganizationRead],
        .ok (Getenv env ENV_TERRAFORM_CLOUD_ORGANIZATION))
  else ([], .ok organizationName)

/-- Lines 40-48: the workspace name, from the flag or from the environment. -/
def resolveWorkspace (workspaceName : String) (env : Environ) :
    List Event × Except Fatal String :=
  if workspaceName = "" then
    match env ENV_TERRAFORM_CLOUD_WORKSPACE with
    | none => ([.println msgNoWorkspace], .error fatalWorkspace)
    | some _ =>
      ([.println msgNoWorkspace, .println msgWorkspaceRead],
        .ok (Getenv env ENV_TERRAFORM_CLOUD_WORKSPACE))
  else ([], .ok workspaceName)

/-- Lines 50-53: the token, from the environment only. -/
def resolveToken (env : Environ) : Except Fatal String :=
  match env ENV_TERRAFORM_CLOUD_TOKEN with
  | none => .error fatalToken
  | some token => if token = "" then .error fatalToken else .ok token

/-- Lines 86-108: the polling loop, entered with the current value of
`numberOfIterations`; `reads k` is the answer to the `k`-th read from now on.
The outcome ends with `none` when the loop is left through `break`. -/
def pollLoop (reads : Nat → Reply RunStatus) (runID : String) (numberOfIterations : Nat) :
    Outcome :=
  match reads 0 with
  | .error err => ⟨[.runsRead runID (.error err)], some (.fatalErr err)⟩
  | .ok status =>
    if status = RunApplied then
      ⟨[.runsRead runID (.ok status), .println msgFinished], none⟩
    else if status = RunErrored then
      ⟨[.runsRead runID (.ok status)], some fatalErrored⟩
    else
      let es : List Event :=
        [.runsRead runID (.ok status),
         .printf fmtDestroying (sleepTimeBetweenIterations * numberOfIterations),
         .sleep sleepTimeBetweenIterations]
      if h : numberOfIterations + 1 > maxIterations then
        ⟨es, some fatalTimeout⟩
      else
        (pollLoop (fun k => reads (k + 1)) runID (numberOfIterations + 1)).after es
termination_by maxIterations + 1 - numberOfIterations
decreasing_by omega

/-- Lines 83-115: the loop started with `numberOfIterations = 0`, and after a
`break` the deletion of the workspace. -/
def pollAndDelete (w : World) (organizationName workspaceName runID : String) : Outcome :=
  let o := pollLoop (w.runsRead runID) runID 0
  match o.fatal with
  | some f => ⟨o.trace, some f⟩
  | none =>
    match w.workspacesDelete organizationName workspaceName with
    | .error err =>
      ⟨o.trace ++ [.println msgDeleting,
        .workspacesDelete organizationName workspaceName (.error err)], some (.fatalErr err)⟩
    | .ok u =>
      ⟨o.trace ++ [.println msgDeleting,
        .workspacesDelete organizationName workspaceName (.ok u)], none⟩

/-- Lines 55-115: the program once the configuration is resolved. -/
def run (w : World) (organizationName workspaceName token : String) : Outcome :=
  match w.newClient token with
  | .error err => ⟨[.newClient token (.error err)], some (.fatalErr err)⟩
  | .ok u =>
    match w.workspacesRead organizationName workspaceName with
    | .error err =>
      ⟨[.newClient token (.ok u),
        .workspacesRead organizationName workspaceName (.error err)], some (.fatalErr err)⟩
    | .ok workspace =>
      match w.runsCreate workspace with
      | .error err =>
        ⟨[.newClient token (.ok u),
          .workspacesRead organizationName workspaceName (.ok workspace),
          .runsCreate workspace (.error err)], some (.fatalErr err)⟩
      | .ok runID =>
        (pollAndDelete w organizationName workspaceName runID).after
          [.newClient token (.ok u),
           .workspacesRead organizationName workspaceName (.ok workspace),
           .runsCreate workspace (.ok runID)]

/-- Lines 30-116: the function `main` from the point where `flag.Parse` has
returned, with the values it left in the two flag variables. -/
def main (flags : Flags) (env : Environ) (w : World) : Outcome :=
  match resolveOrganization flags.organization env with
  | (t1, .error f) => ⟨t1, some f⟩
  | (t1, .ok organizationName) =>
    match resolveWorkspace flags.workspace env with
    | (t2, .error f) => ⟨t1 ++ t2, some f⟩
    | (t2, .ok workspaceName) =>
      match resolveToken env with
      | .error f => ⟨t1 ++ t2, some f⟩
      | .ok token => (run w organizationName workspaceName token).after (t1 ++ t2)

/-! ## The command line -/

/-- How the call `flag.Parse()` of line 28 ends.  The flag set is the default
one, with error handling `flag.ExitOnError`. -/
inductive Parsed where
  /-- The call returns, with these values in the two flag variables. -/
  | ok (flags : Flags)
  /-- The usage is printed for `-h` or `-help`, then `os.Exit(0)`. -/
  | help
  /-- An error and the usage are printed, then `os.Exit(2)`. -/
  | failed (msg : String)
deriving DecidableEq, Repr

/-- The name of a flag argument cut at its first `=` after the first
character: the name, and the value when there is one. -/
def splitFlag (name : List Char) : List Char × Option (List Char) :=
  match name with
  | [] => ([], none)
  | c :: cs =>
    match cs.span (fun x => x != '=') with
    | (before, []) => (c :: before, none)
    | (before, _ :: value) => (c :: before, some value)

/-- Whether a flag of that name is defined: the two flags of lines 23-24. -/
def flagDefined (name : String) : Bool :=
  name = "organization" || name = "workspace"

/-- The method `Set` of a defined flag: the value is stored in its variable. -/
def setFlag (flags : Flags) (name value : String) : Flags :=
  if name = "organization" then { flags with organization := value }
  else { flags with workspace := value }

/-- What one command-line argument is for `flag.Parse`. -/
inductive FlagArg where
  /-- Not a flag (shorter than two characters or not starting with `-`), or the
  terminator `--`: the parsing ends here. -/
  | operand
  /-- A flag with an empty name or a name starting with `-` or `=`. -/
  | bad
  /-- A flag `-name`, `--name`, `-name=value` or `--name=value`. -/
  | flag (name : String) (value : Option String)
deriving DecidableEq, Repr

/-- The first part of `parseOne` of the Go standard library: the argument read
as a flag. -/
def flagArg (s : String) : FlagArg :=
  match s.data with
  | '-' :: c :: cs =>
    if c = '-' ∧ cs = [] then .operand
    else
      let name := if c = '-' then cs else c :: cs
      if name.head? = none ∨ name.head? = some '-' ∨ name.head? = some '=' then .bad
      else
        match splitFlag name with
        | (n, some value) => .flag (String.mk n) (some (String.mk value))
        | (n, none) => .flag (String.mk n) none
  | _ => .operand

/-- The end of `parseOne` for a name that is not a defined flag: the usage for
`help` and `h`, an error otherwise. -/
def undefinedFlag (name : String) : Parsed :=
  if name = "help" ∨ name = "h" then .help
  else .failed ("flag provided but not defined: -" ++ name)

/-- The function `flag.Parse` of the Go standard library on the arguments of
the command line, for a flag set with the two string flags of lines 23-24: one
argument or two are consumed at a time; an argument that is not a flag, or
`--`, ends the parsing; a flag without `=value` takes the next argument as its
value. -/
def flagParse : List String → Flags → Parsed
  | [], flags => .ok flags
  | s :: rest, flags =>
    match flagArg s with
    | .operand => .ok flags
    | .bad => .failed ("bad flag syntax: " ++ s)
    | .flag name value? =>
      if flagDefined name then
        match value? with
        | some value => flagParse rest (setFlag flags name value)
        | none =>
          match rest with
          | [] => .failed ("flag needs an argument: -" ++ name)
          | value :: rest' => flagParse rest' (setFlag flags name value)
      else undefinedFlag name

/-- How the process ends: the events in order and the exit status. -/
structure ProcessEnd where
  trace : List Event
  status : Nat
deriving DecidableEq, Repr

/-- Lines 27-116: the function `main` from the command line: `flag.Parse`
(line 28) and, when it returns, the rest of `main`.  The flag variables start
at their default, the empty string. -/
def program (args : List String) (env : Environ) (w : World) : ProcessEnd :=
  match flagParse args ⟨"", ""⟩ with
  | .help => ⟨[], 0⟩
  | .failed _ => ⟨[], 2⟩
  | .ok flags => ⟨(main flags env w).trace, (main flags env w).exitStatus⟩

/-! ## Reading a trace -/

/-- A read that succeeded with a status that is neither applied nor errored. -/
def Pending (r : Reply RunStatus) : Prop :=
  ∃ status, r = .ok status ∧ status ≠ RunApplied ∧ status ≠ RunErrored

/-- Whether a read is pending can be computed from its answer. -/
instance instDecidablePending (r : Reply RunStatus) : Decidable (Pending r) :=
  match r with
  | .error _ => isFalse (fun h => by obtain ⟨s, hs, -, -⟩ := h; cases hs)
  | .ok status =>
    if ha : status = RunApplied then
      isFalse (fun h => by obtain ⟨s, hs, hna, -⟩ := h; cases hs; exact hna ha)
    else if he : status = RunErrored then
      isFalse (fun h => by obtain ⟨s, hs, -, hne⟩ := h; cases hs; exact hne he)
    else isTrue ⟨status, rfl, ha, he⟩

/-- The answer carried by a `Runs.Read` event. -/
def Event.readReply? : Event → Option (Reply RunStatus)
  | .runsRead _ reply => some reply
  | _ => none

/-- The seconds of a `time.Sleep` event. -/
def Event.sleepSeconds? : Event → Option Nat
  | .sleep seconds => some seconds
  | _ => none

/-- The value printed by a `log.Printf` event. -/
def Event.loggedValue? : Event → Option Nat
  | .printf _ value => some value
  | _ => none

/-- Whether the event is a call of `client.Workspaces.Delete`. -/
def Event.isDelete : Event → Bool
  | .workspacesDelete _ _ _ => true
  | _ => false

/-- Whether the event is the construction of the client. -/
def Event.isNewClient : Event → Bool
  | .newClient _ _ => true
  | _ => false

/-- Whether the event is one of the four calls to the remote service: workspace
read, run create, run read, workspace delete. -/
def Event.isNetworkCall : Event → Bool
  | .workspacesRead _ _ _ => true
  | .runsCreate _ _ => true
  | .runsRead _ _ => true
  | .workspacesDelete _ _ _ => true
  | _ => false

/-- Whether the event is a call of the client library answered with an error. -/
def Event.failed : Event → Bool
  | .newClient _ (.error _) => true
  | .workspacesRead _ _ (.error _) => true
  | .runsCreate _ (.error _) => true
  | .runsRead _ (.error _) => true
  | .workspacesDelete _ _ (.error _) => true
  | _ => false

/-- The answers of the run reads of a trace, in order. -/
def readReplies (t : List Event) : List (Reply RunStatus) := t.filterMap Event.readReply?

/-- The durations of the sleeps of a trace, in order. -/
def sleeps (t : List Event) : List Nat := t.filterMap Event.sleepSeconds?

/-- The values of the elapsed-time log lines of a trace, in order. -/
def logged (t : List Event) : List Nat := t.filterMap Event.loggedValue?

/-- The number of workspace deletions of a trace. -/
def deleteCount (t : List Event) : Nat := t.countP Event.isDelete

/-- The calls to the remote service of a trace, in order. -/
def networkCalls (t : List Event) : List Event := t.filter Event.isNetworkCall

/-! ## Reading the configuration -/

/-- The organization is given: by the flag, or the variable is set. -/
def OrganizationGiven (flags : Flags) (env : Environ) : Prop :=
  flags.organization ≠ "" ∨ env ENV_TERRAFORM_CLOUD_ORGANIZATION ≠ none

/-- The workspace is given: by the flag, or the variable is set. -/
def WorkspaceGiven (flags : Flags) (env : Environ) : Prop :=
  flags.workspace ≠ "" ∨ env ENV_TERRAFORM_CLOUD_WORKSPACE ≠ none

/-- The token is given: the variable is set to a non-empty string. -/
def TokenGiven (env : Environ) : Prop :=
  ∃ token, env ENV_TERRAFORM_CLOUD_TOKEN = some token ∧ token ≠ ""

/-- The configuration is resolved: organization, workspace and token are given. -/
def ConfigResolved (flags : Flags) (env : Environ) : Prop :=
  OrganizationGiven flags env ∧ WorkspaceGiven flags env ∧ TokenGiven env

/-! ## Shapes of loop traces -/

/-- The events of `m` iterations of the loop that end in the sleep, the first
entered with `numberOfIterations = n`. -/
def pendingEvents (reads : Nat → Reply RunStatus) (runID : String) (n : Nat) :
    Nat → List Event
  | 0 => []
  | m + 1 =>
    [.runsRead runID (reads 0), .printf fmtDestroying (sleepTimeBetweenIterations * n),
      .sleep sleepTimeBetweenIterations] ++
      pendingEvents (fun k => reads (k + 1)) runID (n + 1) m

/-- The four ways the loop ends after `m` pending iterations, by the answer of
read number `m`: an error, applied, errored, or a pending read at the cap. -/
def LoopEnds (reads : Nat → Reply RunStatus) (runID : String) (n m : Nat) (o : Outcome) : Prop :=
  (∃ err, reads m = .error err ∧
      o = ⟨pendingEvents reads runID n m ++ [.runsRead runID (.error err)], some (.fatalErr err)⟩) ∨
  (reads m = .ok RunApplied ∧
      o = ⟨pendingEvents reads runID n m ++
        [.runsRead runID (.ok RunApplied), .println msgFinished], none⟩) ∨
  (reads m = .ok RunErrored ∧
      o = ⟨pendingEvents reads runID n m ++ [.runsRead runID (.ok RunErrored)],
        some fatalErrored⟩) ∨
  (Pending (reads m) ∧ n + m = maxIterations ∧
      o = ⟨pendingEvents reads runID n (m + 1), some fatalTimeout⟩)

/-! ## Sample inputs -/

/-- An environment with the three variables of the program set or unset. -/
def envOf (organization workspace token : Option String) : Environ := fun key =>
  if key = ENV_TERRAFORM_CLOUD_ORGANIZATION then organization
  else if key = ENV_TERRAFORM_CLOUD_WORKSPACE then workspace
  else if key = ENV_TERRAFORM_CLOUD_TOKEN then token
  else none

/-- The error `ErrInvalidOrg` of the client library. -/
def errInvalidOrg : String := "invalid value for organization"

/-- The error `ErrInvalidWorkspaceValue` of the client library. -/
def errInvalidWorkspaceValue : String := "invalid value for workspace"

/-- A remote service behind the client library: the library refuses an empty
organization or workspace name in `Workspaces.Read` and `Workspaces.Delete`
before sending anything; every other call succeeds; the run is read as planning
`n` times and as `final` from then on. -/
def pendingThen (n : Nat) (final : RunStatus) : World where
  newClient := fun _ => .ok ()
  workspacesRead := fun organization workspace =>
    if organization = "" then .error errInvalidOrg
    else if workspace = "" then .error errInvalidWorkspaceValue
    else .ok "ws-1"
  runsCreate := fun _ => .ok "run-1"
  runsRead := fun _ k => if k < n then .ok "planning" else .ok final
  workspacesDelete := fun organization workspace =>
    if organization = "" then .error errInvalidOrg
    else if workspace = "" then .error errInvalidWorkspaceValue
    else .ok ()

/-! ## Lemmas -/

theorem pollLoop_error (reads : Nat → Reply RunStatus) (runID : String) (n : Nat) (err : String)
    (h : reads 0 = .error err) :
    pollLoop reads runID n = ⟨[.runsRead runID (.error err)], some (.fatalErr err)⟩ := by
  rw [pollLoop, h]

theorem pollLoop_applied (reads : Nat → Reply RunStatus) (runID : String) (n : Nat)
    (h : reads 0 = .ok RunApplied) :
    pollLoop reads runID n =
      ⟨[.runsRead runID (.ok RunApplied), .println msgFinished], none⟩ := by
  rw [pollLoop, h]; simp

theorem pollLoop_errored (reads : Nat → Reply RunStatus) (runID : String) (n : Nat)
    (h : reads 0 = .ok RunErrored) :
    pollLoop reads runID n = ⟨[.runsRead runID (.ok RunErrored)], some fatalErrored⟩ := by
  rw [pollLoop, h]
  have : RunErrored ≠ RunApplied := by decide
  simp [this]

theorem pollLoop_pending (reads : Nat → Reply RunStatus) (runID : String) (n : Nat)
    (h : Pending (reads 0)) (hn : n < maxIterations) :
    pollLoop reads runID n =
      (pollLoop (fun k => reads (k + 1)) runID (n + 1)).after (pendingEvents reads runID n 1) := by
  obtain ⟨status, hs, ha, he⟩ := h
  rw [pollLoop, hs]
  have hlt : ¬ (n + 1 > maxIterations) := by omega
  simp [ha, he, hlt, pendingEvents, hs]

theorem pollLoop_timeout (reads : Nat → Reply RunStatus) (runID : String) (n : Nat)
    (h : Pending (reads 0)) (hn : maxIterations ≤ n) :
    pollLoop reads runID n = ⟨pendingEvents reads runID n 1, some fatalTimeout⟩ := by
  obtain ⟨status, hs, ha, he⟩ := h
  rw [pollLoop, hs]
  have hlt : n + 1 > maxIterations := by omega
  simp [ha, he, hlt, pendingEvents, hs]

theorem after_after (es fs : List Event) (o : Outcome) :
    (o.after fs).after es = o.after (es ++ fs) := by
  simp [Outcome.after]

theorem pendingEvents_add (reads : Nat → Reply RunStatus) (runID : String) (n a b : Nat) :
    pendingEvents reads runID n (a + b) =
      pendingEvents reads runID n a ++ pendingEvents (fun k => reads (k + a)) runID (n + a) b := by
  induction a generalizing reads n with
  | zero => simp [pendingEvents]
  | succ a ih =>
    have e : a + 1 + b = (a + b) + 1 := by omega
    rw [e, pendingEvents, pendingEvents, ih]
    have e2 : n + 1 + a = n + (a + 1) := by omega
    have e3 : (fun k => (fun k => reads (k + 1)) (k + a)) = fun k => reads (k + (a + 1)) := by
      funext k; simp [Nat.add_assoc]
    simp [e2, e3]

/-- Unrolling: `m` pending reads in a row, within the cap, are `m` iterations. -/
theorem pollLoop_unroll (reads : Nat → Reply RunStatus) (runID : String) (n m : Nat)
    (hp : ∀ k, k < m → Pending (reads k)) (hn : n + m ≤ maxIterations) :
    pollLoop reads runID n =
      (pollLoop (fun k => reads (k + m)) runID (n + m)).after (pendingEvents reads runID n m) := by
  induction m generalizing reads n with
  | zero => simp [pendingEvents, Outcome.after]
  | succ m ih =>
    rw [pollLoop_pending reads runID n (hp 0 (by omega)) (by omega)]
    rw [ih (fun k => reads (k + 1)) (n + 1) (fun k hk => hp (k + 1) (by omega)) (by omega)]
    rw [after_after]
    have e : 1 + m = m + 1 := by omega
    have e2 : n + 1 + m = n + (m + 1) := by omega
    have e3 : (fun k => (fun k => reads (k + 1)) (k + m)) = fun k => reads (k + (m + 1)) := by
      funext k; simp [Nat.add_assoc]
    have := pendingEvents_add reads runID n 1 m
    rw [e] at this
    simp only [this, e2, e3]

theorem readReplies_append (s t : List Event) :
    readReplies (s ++ t) = readReplies s ++ readReplies t := by
  simp [readReplies]

theorem sleeps_append (s t : List Event) : sleeps (s ++ t) = sleeps s ++ sleeps t := by
  simp [sleeps]

theorem logged_append (s t : List Event) : logged (s ++ t) = logged s ++ logged t := by
  simp [logged]

theorem deleteCount_append (s t : List Event) :
    deleteCount (s ++ t) = deleteCount s + deleteCount t := by
  simp [deleteCount]

theorem readReplies_pendingEvents (reads : Nat → Reply RunStatus) (runID : String) (n m : Nat) :
    readReplies (pendingEvents reads runID n m) = (List.range m).map reads := by
  induction m generalizing reads n with
  | zero => simp [pendingEvents, readReplies]
  | succ m ih =>
    rw [pendingEvents, readReplies_append, ih, List.range_succ_eq_map]
    simp [readReplies, Event.readReply?, List.map_map, Function.comp_def]

theorem sleeps_pendingEvents (reads : Nat → Reply RunStatus) (runID : String) (n m : Nat) :
    sleeps (pendingEvents reads runID n m) = List.replicate m 10 := by
  induction m generalizing reads n with
  | zero => simp [pendingEvents, sleeps]
  | succ m ih =>
    rw [pendingEvents, sleeps_append, ih, List.replicate_succ]
    simp [sleeps, Event.sleepSeconds?, sleepTimeBetweenIterations]

theorem logged_pendingEvents (reads : Nat → Reply RunStatus) (runID : String) (n m : Nat) :
    logged (pendingEvents reads runID n m) = (List.range m).map (fun k => 10 * (n + k)) := by
  induction m generalizing reads n with
  | zero => simp [pendingEvents, logged]
  | succ m ih =>
    rw [pendingEvents, logged_append, ih, List.range_succ_eq_map]
    simp [logged, Event.loggedValue?, List.map_map, Function.comp_def,
      sleepTimeBetweenIterations, Nat.add_assoc, Nat.add_comm 1]

theorem not_pending_applied : ¬ Pending (.ok RunApplied) := by
  rintro ⟨s, hs, ha, -⟩
  cases hs
  exact ha rfl

theorem not_pending_errored : ¬ Pending (.ok RunErrored) := by
  rintro ⟨s, hs, -, he⟩
  cases hs
  exact he rfl

theorem not_pending_error (err : String) : ¬ Pending (.error err) := by
  rintro ⟨s, hs, -, -⟩
  cases hs

/-- A read answers with an error, with applied, with errored, or is pending. -/
theorem reply_cases (r : Reply RunStatus) :
    (∃ err, r = .error err) ∨ r = .ok RunApplied ∨ r = .ok RunErrored ∨ Pending r := by
  cases r with
  | error err => exact Or.inl ⟨err, rfl⟩
  | ok status =>
    by_cases ha : status = RunApplied
    · exact Or.inr (Or.inl (by rw [ha]))
    · by_cases he : status = RunErrored
      · exact Or.inr (Or.inr (Or.inl (by rw [he])))
      · exact Or.inr (Or.inr (Or.inr ⟨status, rfl, ha, he⟩))

/-- The loop runs some `m` pending iterations within the cap and then ends in
one of the four ways. -/
theorem pollLoop_ends (reads : Nat → Reply RunStatus) (runID : String) (n : Nat)
    (hn : n ≤ maxIterations) :
    ∃ m, n + m ≤ maxIterations ∧ (∀ k, k < m → Pending (reads k)) ∧
      LoopEnds reads runID n m (pollLoop reads runID n) := by
  obtain ⟨d, hd⟩ : ∃ d, d = maxIterations - n := ⟨_, rfl⟩
  induction d generalizing reads n with
  | zero =>
    refine ⟨0, by omega, fun k hk => absurd hk (Nat.not_lt_zero k), ?_⟩
    rcases reply_cases (reads 0) with ⟨err, h⟩ | h | h | h
    · exact Or.inl ⟨err, h, by rw [pollLoop_error _ _ _ _ h]; simp [pendingEvents]⟩
    · exact Or.inr (Or.inl ⟨h, by rw [pollLoop_applied _ _ _ h]; simp [pendingEvents]⟩)
    · exact Or.inr (Or.inr (Or.inl ⟨h, by rw [pollLoop_errored _ _ _ h]; simp [pendingEvents]⟩))
    · exact Or.inr (Or.inr (Or.inr ⟨h, by omega, pollLoop_timeout _ _ _ h (by omega)⟩))
  | succ d ih =>
    rcases reply_cases (reads 0) with ⟨err, h⟩ | h | h | h
    · exact ⟨0, by omega, fun k hk => absurd hk (Nat.not_lt_zero k),
        Or.inl ⟨err, h, by rw [pollLoop_error _ _ _ _ h]; simp [pendingEvents]⟩⟩
    · exact ⟨0, by omega, fun k hk => absurd hk (Nat.not_lt_zero k),
        Or.inr (Or.inl ⟨h, by rw [pollLoop_applied _ _ _ h]; simp [pendingEvents]⟩)⟩
    · exact ⟨0, by omega, fun k hk => absurd hk (Nat.not_lt_zero k),
        Or.inr (Or.inr (Or.inl ⟨h, by rw [pollLoop_errored _ _ _ h]; simp [pendingEvents]⟩))⟩
    · obtain ⟨m, hm, hp, hend⟩ := ih (fun k => reads (k + 1)) (n + 1) (by omega) (by omega)
      have hp' : ∀ k, k < m + 1 → Pending (reads k) := by
        intro k hk
        cases k with
        | zero => exact h
        | succ k => exact hp k (by omega)
      refine ⟨m + 1, by omega, hp', ?_⟩
      have hstep := pollLoop_pending reads runID n h (by omega)
      have hev : ∀ j, pendingEvents reads runID n (j + 1) =
          pendingEvents reads runID n 1 ++ pendingEvents (fun k => reads (k + 1)) runID (n + 1) j := by
        intro j
        rw [Nat.add_comm j 1, pendingEvents_add]
      rcases hend with ⟨err, h1, h2⟩ | ⟨h1, h2⟩ | ⟨h1, h2⟩ | ⟨h1, h2, h3⟩
      · exact Or.inl ⟨err, h1, by rw [hstep, h2, hev m]; simp [Outcome.after]⟩
      · exact Or.inr (Or.inl ⟨h1, by rw [hstep, h2, hev m]; simp [Outcome.after]⟩)
      · exact Or.inr (Or.inr (Or.inl ⟨h1, by rw [hstep, h2, hev m]; simp [Outcome.after]⟩))
      · exact Or.inr (Or.inr (Or.inr ⟨h1, by omega, by
          rw [hstep, h3, hev (m + 1)]; simp [Outcome.after]⟩))

theorem pollLoop_applied_at (reads : Nat → Reply RunStatus) (runID : String) (n m : Nat)
    (hp : ∀ k, k < m → Pending (reads k)) (hm : n + m ≤ maxIterations)
    (h : reads m = .ok RunApplied) :
    pollLoop reads runID n = ⟨pendingEvents reads runID n m ++
      [.runsRead runID (.ok RunApplied), .println msgFinished], none⟩ := by
  rw [pollLoop_unroll reads runID n m hp hm,
    pollLoop_applied (fun k => reads (k + m)) runID (n + m) (by simpa using h)]
  simp [Outcome.after]

theorem pollLoop_errored_at (reads : Nat → Reply RunStatus) (runID : String) (n m : Nat)
    (hp : ∀ k, k < m → Pending (reads k)) (hm : n + m ≤ maxIterations)
    (h : reads m = .ok RunErrored) :
    pollLoop reads runID n = ⟨pendingEvents reads runID n m ++
      [.runsRead runID (.ok RunErrored)], some fatalErrored⟩ := by
  rw [pollLoop_unroll reads runID n m hp hm,
    pollLoop_errored (fun k => reads (k + m)) runID (n + m) (by simpa using h)]
  simp [Outcome.after]

theorem pollLoop_timeout_at (reads : Nat → Reply RunStatus) (runID : String) (n m : Nat)
    (hp : ∀ k, k < m + 1 → Pending (reads k)) (hm : n + m = maxIterations) :
    pollLoop reads runID n = ⟨pendingEvents reads runID n (m + 1), some fatalTimeout⟩ := by
  rw [pollLoop_unroll reads runID n m (fun k hk => hp k (by omega)) (by omega),
    pollLoop_timeout (fun k => reads (k + m)) runID (n + m)
      (by simpa using hp m (by omega)) (by omega), pendingEvents_add]
  simp [Outcome.after]

theorem deleteCount_pendingEvents (reads : Nat → Reply RunStatus) (runID : String) (n m : Nat) :
    deleteCount (pendingEvents reads runID n m) = 0 := by
  induction m generalizing reads n with
  | zero => simp [pendingEvents, deleteCount]
  | succ m ih =>
    rw [pendingEvents, deleteCount_append, ih]
    simp [deleteCount, Event.isDelete]

/-- What every way of ending the loop has in common. -/
theorem LoopEnds.facts {reads : Nat → Reply RunStatus} {runID : String} {n m : Nat} {o : Outcome}
    (hm : n + m ≤ maxIterations) (h : LoopEnds reads runID n m o) :
    (readReplies o.trace).length ≤ maxIterations + 1 - n ∧ deleteCount o.trace = 0 ∧
      ∃ j, j ≤ maxIterations + 1 - n ∧ logged o.trace = (List.range j).map (fun k => 10 * (n + k)) ∧
        sleeps o.trace = List.replicate j 10 := by
  rcases h with ⟨err, -, h⟩ | ⟨-, h⟩ | ⟨-, h⟩ | ⟨-, -, h⟩
  · subst h
    refine ⟨?_, ?_, m, by omega, ?_, ?_⟩
    · simp only [readReplies_append, readReplies_pendingEvents]
      simp [readReplies, Event.readReply?]; omega
    · simp only [deleteCount_append, deleteCount_pendingEvents]
      simp [deleteCount, Event.isDelete]
    · simp only [logged_append, logged_pendingEvents]
      simp [logged, Event.loggedValue?]
    · simp only [sleeps_append, sleeps_pendingEvents]
      simp [sleeps, Event.sleepSeconds?]
  · subst h
    refine ⟨?_, ?_, m, by omega, ?_, ?_⟩
    · simp only [readReplies_append, readReplies_pendingEvents]
      simp [readReplies, Event.readReply?]; omega
    · simp only [deleteCount_append, deleteCount_pendingEvents]
      simp [deleteCount, Event.isDelete]
    · simp only [logged_append, logged_pendingEvents]
      simp [logged, Event.loggedValue?]
    · simp only [sleeps_append, sleeps_pendingEvents]
      simp [sleeps, Event.sleepSeconds?]
  · subst h
    refine ⟨?_, ?_, m, by omega, ?_, ?_⟩
    · simp only [readReplies_append, readReplies_pendingEvents]
      simp [readReplies, Event.readReply?]; omega
    · simp only [deleteCount_append, deleteCount_pendingEvents]
      simp [deleteCount, Event.isDelete]
    · simp only [logged_append, logged_pendingEvents]
      simp [logged, Event.loggedValue?]
    · simp only [sleeps_append, sleeps_pendingEvents]
      simp [sleeps, Event.sleepSeconds?]
  · subst h
    refine ⟨?_, ?_, m + 1, by omega, ?_, ?_⟩
    · simp [readReplies_pendingEvents]; omega
    · simp [deleteCount_pendingEvents]
    · simp [logged_pendingEvents]
    · simp [sleeps_pendingEvents]

/-- After a fatal end of the loop the deletion is not reached. -/
theorem pollAndDelete_of_fatal (w : World) (organizationName workspaceName runID : String)
    (f : Fatal) (h : (pollLoop (w.runsRead runID) runID 0).fatal = some f) :
    pollAndDelete w organizationName workspaceName runID =
      ⟨(pollLoop (w.runsRead runID) runID 0).trace, some f⟩ := by
  simp [pollAndDelete, h]

/-- After a `break` the deletion is called, and its answer decides the end. -/
theorem pollAndDelete_of_break (w : World) (organizationName workspaceName runID : String)
    (h : (pollLoop (w.runsRead runID) runID 0).fatal = none) :
    pollAndDelete w organizationName workspaceName runID =
      ⟨(pollLoop (w.runsRead runID) runID 0).trace ++ [.println msgDeleting,
        .workspacesDelete organizationName workspaceName
          (w.workspacesDelete organizationName workspaceName)],
       match w.workspacesDelete organizationName workspaceName with
       | .ok _ => none
       | .error err => some (.fatalErr err)⟩ := by
  simp only [pollAndDelete, h]
  cases w.workspacesDelete organizationName workspaceName <;> rfl

theorem resolveOrganization_cases (organizationName : String) (env : Environ) :
    (organizationName = "" ∧ env ENV_TERRAFORM_CLOUD_ORGANIZATION = none ∧
      resolveOrganization organizationName env =
        ([.println msgNoOrganization], .error fatalOrganization)) ∨
    ((organizationName ≠ "" ∨ env ENV_TERRAFORM_CLOUD_ORGANIZATION ≠ none) ∧
      ∃ (msgs : List String) (name : String), resolveOrganization organizationName env = (msgs.map .println, .ok name)) := by
  unfold resolveOrganization
  by_cases h : organizationName = ""
  · cases he : env ENV_TERRAFORM_CLOUD_ORGANIZATION with
    | none => exact Or.inl ⟨h, rfl, by simp [h]⟩
    | some v =>
      exact Or.inr ⟨Or.inr (by simp), [msgNoOrganization, msgOrganizationRead],
        Getenv env ENV_TERRAFORM_CLOUD_ORGANIZATION, by simp [h]⟩
  · exact Or.inr ⟨Or.inl h, [], organizationName, by simp [h]⟩

theorem resolveWorkspace_cases (workspaceName : String) (env : Environ) :
    (workspaceName = "" ∧ env ENV_TERRAFORM_CLOUD_WORKSPACE = none ∧
      resolveWorkspace workspaceName env =
        ([.println msgNoWorkspace], .error fatalWorkspace)) ∨
    ((workspaceName ≠ "" ∨ env ENV_TERRAFORM_CLOUD_WORKSPACE ≠ none) ∧
      ∃ (msgs : List String) (name : String), resolveWorkspace workspaceName env = (msgs.map .println, .ok name)) := by
  unfold resolveWorkspace
  by_cases h : workspaceName = ""
  · cases he : env ENV_TERRAFORM_CLOUD_WORKSPACE with
    | none => exact Or.inl ⟨h, rfl, by simp [h]⟩
    | some v =>
      exact Or.inr ⟨Or.inr (by simp), [msgNoWorkspace, msgWorkspaceRead],
        Getenv env ENV_TERRAFORM_CLOUD_WORKSPACE, by simp [h]⟩
  · exact Or.inr ⟨Or.inl h, [], workspaceName, by simp [h]⟩

theorem resolveToken_cases (env : Environ) :
    ((env ENV_TERRAFORM_CLOUD_TOKEN = none ∨ env ENV_TERRAFORM_CLOUD_TOKEN = some "") ∧
      resolveToken env = .error fatalToken) ∨
    (∃ token, env ENV_TERRAFORM_CLOUD_TOKEN = some token ∧ token ≠ "" ∧
      resolveToken env = .ok token) := by
  unfold resolveToken
  cases he : env ENV_TERRAFORM_CLOUD_TOKEN with
  | none => exact Or.inl ⟨Or.inl rfl, rfl⟩
  | some token =>
    by_cases h : token = ""
    · exact Or.inl ⟨Or.inr (by rw [h]), by simp [h]⟩
    · exact Or.inr ⟨token, rfl, h, by simp [h]⟩

/-- The four ways the configuration phase of `main` ends. -/
theorem main_cases (flags : Flags) (env : Environ) (w : World) :
    ∃ msgs : List String,
      (flags.organization = "" ∧ env ENV_TERRAFORM_CLOUD_ORGANIZATION = none ∧
        main flags env w = ⟨[.println msgNoOrganization], some fatalOrganization⟩) ∨
      (OrganizationGiven flags env ∧ flags.workspace = "" ∧
        env ENV_TERRAFORM_CLOUD_WORKSPACE = none ∧
        main flags env w = ⟨msgs.map .println, some fatalWorkspace⟩) ∨
      (OrganizationGiven flags env ∧ WorkspaceGiven flags env ∧
        (env ENV_TERRAFORM_CLOUD_TOKEN = none ∨ env ENV_TERRAFORM_CLOUD_TOKEN = some "") ∧
        main flags env w = ⟨msgs.map .println, some fatalToken⟩) ∨
      (OrganizationGiven flags env ∧ WorkspaceGiven flags env ∧
        ∃ organizationName workspaceName token,
          env ENV_TERRAFORM_CLOUD_TOKEN = some token ∧ token ≠ "" ∧
          main flags env w =
            (run w organizationName workspaceName token).after (msgs.map .println)) := by
  rcases resolveOrganization_cases flags.organization env with
    ⟨h1, h2, h3⟩ | ⟨horg, m1, org, h3⟩
  · exact ⟨[], Or.inl ⟨h1, h2, by simp [main, h3]⟩⟩
  rcases resolveWorkspace_cases flags.workspace env with ⟨g1, g2, g3⟩ | ⟨hws, m2, ws, g3⟩
  · exact ⟨m1 ++ [msgNoWorkspace], Or.inr (Or.inl ⟨horg, g1, g2, by simp [main, h3, g3]⟩)⟩
  rcases resolveToken_cases env with ⟨k1, k2⟩ | ⟨token, k1, k2, k3⟩
  · exact ⟨m1 ++ m2, Or.inr (Or.inr (Or.inl ⟨horg, hws, k1, by simp [main, h3, g3, k2]⟩))⟩
  · exact ⟨m1 ++ m2, Or.inr (Or.inr (Or.inr ⟨horg, hws, org, ws, token, k1, k2, by
      simp [main, h3, g3, k3]⟩))⟩

/-- The four ways `run` goes on after the configuration. -/
theorem run_cases (w : World) (organizationName workspaceName token : String) :
    (∃ err, run w organizationName workspaceName token =
      ⟨[.newClient token (.error err)], some (.fatalErr err)⟩) ∨
    (∃ u err, run w organizationName workspaceName token =
      ⟨[.newClient token (.ok u),
        .workspacesRead organizationName workspaceName (.error err)], some (.fatalErr err)⟩) ∨
    (∃ u workspace err, run w organizationName workspaceName token =
      ⟨[.newClient token (.ok u),
        .workspacesRead organizationName workspaceName (.ok workspace),
        .runsCreate workspace (.error err)], some (.fatalErr err)⟩) ∨
    (∃ u workspace runID, run w organizationName workspaceName token =
      (pollAndDelete w organizationName workspaceName runID).after
        [.newClient token (.ok u),
         .workspacesRead organizationName workspaceName (.ok workspace),
         .runsCreate workspace (.ok runID)]) := by
  cases h1 : w.newClient token with
  | error err => exact Or.inl ⟨err, by simp [run, h1]⟩
  | ok u =>
    cases h2 : w.workspacesRead organizationName workspaceName with
    | error err => exact Or.inr (Or.inl ⟨u, err, by simp [run, h1, h2]⟩)
    | ok workspace =>
      cases h3 : w.runsCreate workspace with
      | error err => exact Or.inr (Or.inr (Or.inl ⟨u, workspace, err, by simp [run, h1, h2, h3]⟩))
      | ok runID => exact Or.inr (Or.inr (Or.inr ⟨u, workspace, runID, by simp [run, h1, h2, h3]⟩))

/-- The five ways the loop and the deletion end, after `m` pending iterations. -/
theorem pollAndDelete_cases (w : World) (organizationName workspaceName runID : String) :
    ∃ m, m ≤ 360 ∧ (∀ k, k < m → Pending (w.runsRead runID k)) ∧
      ((∃ err, w.runsRead runID m = .error err ∧
          pollAndDelete w organizationName workspaceName runID =
          ⟨pendingEvents (w.runsRead runID) runID 0 m ++ [.runsRead runID (.error err)],
            some (.fatalErr err)⟩) ∨
        (w.runsRead runID m = .ok RunErrored ∧
          pollAndDelete w organizationName workspaceName runID =
          ⟨pendingEvents (w.runsRead runID) runID 0 m ++ [.runsRead runID (.ok RunErrored)],
            some fatalErrored⟩) ∨
        (m = 360 ∧ Pending (w.runsRead runID 360) ∧
          pollAndDelete w organizationName workspaceName runID =
            ⟨pendingEvents (w.runsRead runID) runID 0 361, some fatalTimeout⟩) ∨
        (∃ err, w.runsRead runID m = .ok RunApplied ∧
          w.workspacesDelete organizationName workspaceName = .error err ∧
          pollAndDelete w organizationName workspaceName runID =
          ⟨pendingEvents (w.runsRead runID) runID 0 m ++
            [.runsRead runID (.ok RunApplied), .println msgFinished, .println msgDeleting,
              .workspacesDelete organizationName workspaceName (.error err)],
            some (.fatalErr err)⟩) ∨
        (w.runsRead runID m = .ok RunApplied ∧
          w.workspacesDelete organizationName workspaceName = .ok () ∧
          pollAndDelete w organizationName workspaceName runID =
          ⟨pendingEvents (w.runsRead runID) runID 0 m ++
            [.runsRead runID (.ok RunApplied), .println msgFinished, .println msgDeleting,
              .workspacesDelete organizationName workspaceName (.ok ())], none⟩)) := by
  obtain ⟨m, hm, hp, hend⟩ := pollLoop_ends (w.runsRead runID) runID 0 (Nat.zero_le _)
  have hm' : m ≤ 360 := by simpa [maxIterations] using hm
  refine ⟨m, hm', hp, ?_⟩
  rcases hend with ⟨err, hr, h⟩ | ⟨hr, h⟩ | ⟨hr, h⟩ | ⟨h1, h2, h⟩
  · exact Or.inl ⟨err, hr, by
      rw [pollAndDelete_of_fatal w _ _ runID (.fatalErr err) (by rw [h]), h]⟩
  · have hb : (pollLoop (w.runsRead runID) runID 0).fatal = none := by rw [h]
    rw [pollAndDelete_of_break w _ _ runID hb, h]
    cases hd : w.workspacesDelete organizationName workspaceName with
    | ok u => exact Or.inr (Or.inr (Or.inr (Or.inr ⟨hr, rfl, by simp⟩)))
    | error err => exact Or.inr (Or.inr (Or.inr (Or.inl ⟨err, hr, rfl, by simp⟩)))
  · exact Or.inr (Or.inl ⟨hr, by
      rw [pollAndDelete_of_fatal w _ _ runID fatalErrored (by rw [h]), h]⟩)
  · have hm360 : m = 360 := by simpa [maxIterations] using h2
    subst hm360
    exact Or.inr (Or.inr (Or.inl ⟨rfl, h1, by
      rw [pollAndDelete_of_fatal w _ _ runID fatalTimeout (by rw [h]), h]⟩))

theorem mem_pendingEvents_index (reads : Nat → Reply RunStatus) (runID : String) (n m : Nat)
    (e : Event) (he : e ∈ pendingEvents reads runID n m) :
    (∃ k, k < m ∧ e = .runsRead runID (reads k)) ∨
      (∃ v, e = .printf fmtDestroying v) ∨ e = .sleep 10 := by
  induction m generalizing reads n with
  | zero => simp [pendingEvents] at he
  | succ m ih =>
    rw [pendingEvents] at he
    rcases List.mem_append.1 he with h | h
    · simp only [List.mem_cons, List.mem_singleton, List.not_mem_nil, or_false] at h
      rcases h with h | h | h
      · exact Or.inl ⟨0, by omega, h⟩
      · exact Or.inr (Or.inl ⟨_, h⟩)
      · exact Or.inr (Or.inr h)
    · rcases ih (fun k => reads (k + 1)) (n + 1) h with ⟨k, hk, h'⟩ | h' | h'
      · exact Or.inl ⟨k + 1, by omega, h'⟩
      · exact Or.inr (Or.inl h')
      · exact Or.inr (Or.inr h')

theorem runsRead_mem_pendingEvents {reads : Nat → Reply RunStatus} {runID : String} {n m : Nat}
    (hp : ∀ k, k < m → Pending (reads k)) {runID' : String} {r : Reply RunStatus}
    (h : Event.runsRead runID' r ∈ pendingEvents reads runID n m) : Pending r := by
  rcases mem_pendingEvents_index reads runID n m _ h with ⟨k, hk, h'⟩ | ⟨v, h'⟩ | h'
  · cases h'
    exact hp k hk
  · cases h'
  · cases h'

theorem networkCalls_pendingEvents (reads : Nat → Reply RunStatus) (runID : String) (n m : Nat) :
    (pendingEvents reads runID n m).filter Event.isNetworkCall =
      ((List.range m).map reads).map (.runsRead runID) := by
  induction m generalizing reads n with
  | zero => simp [pendingEvents]
  | succ m ih =>
    rw [pendingEvents, List.filter_append, ih, List.range_succ_eq_map]
    simp [Event.isNetworkCall, List.map_map, Function.comp_def]

/-- Every way `main` ends, with its whole trace. -/
theorem main_leaves (flags : Flags) (env : Environ) (w : World) :
    ∃ (msgs : List String) (org ws token wsh id : String) (m : Nat),
      m ≤ 360 ∧ (∀ k, k < m → Pending (w.runsRead id k)) ∧
      ((¬ OrganizationGiven flags env ∧
          main flags env w = ⟨msgs.map .println, some fatalOrganization⟩) ∨
        (OrganizationGiven flags env ∧ ¬ WorkspaceGiven flags env ∧
          main flags env w = ⟨msgs.map .println, some fatalWorkspace⟩) ∨
        (OrganizationGiven flags env ∧ WorkspaceGiven flags env ∧ ¬ TokenGiven env ∧
          main flags env w = ⟨msgs.map .println, some fatalToken⟩) ∨
        (ConfigResolved flags env ∧ ∃ err, main flags env w =
          ⟨msgs.map .println ++ [.newClient token (.error err)], some (.fatalErr err)⟩) ∨
        (ConfigResolved flags env ∧ ∃ err, main flags env w =
          ⟨msgs.map .println ++ [.newClient token (.ok ()),
            .workspacesRead org ws (.error err)], some (.fatalErr err)⟩) ∨
        (ConfigResolved flags env ∧ ∃ err, main flags env w =
          ⟨msgs.map .println ++ [.newClient token (.ok ()),
            .workspacesRead org ws (.ok wsh), .runsCreate wsh (.error err)],
            some (.fatalErr err)⟩) ∨
        (ConfigResolved flags env ∧ ∃ err, main flags env w =
          ⟨msgs.map .println ++ ([.newClient token (.ok ()),
            .workspacesRead org ws (.ok wsh), .runsCreate wsh (.ok id)] ++
            (pendingEvents (w.runsRead id) id 0 m ++ [.runsRead id (.error err)])),
            some (.fatalErr err)⟩) ∨
        (ConfigResolved flags env ∧ main flags env w =
          ⟨msgs.map .println ++ ([.newClient token (.ok ()),
            .workspacesRead org ws (.ok wsh), .runsCreate wsh (.ok id)] ++
            (pendingEvents (w.runsRead id) id 0 m ++ [.runsRead id (.ok RunErrored)])),
            some fatalErrored⟩) ∨
        (ConfigResolved flags env ∧ m = 360 ∧ Pending (w.runsRead id 360) ∧
          main flags env w =
          ⟨msgs.map .println ++ ([.newClient token (.ok ()),
            .workspacesRead org ws (.ok wsh), .runsCreate wsh (.ok id)] ++
            pendingEvents (w.runsRead id) id 0 361), some fatalTimeout⟩) ∨
        (ConfigResolved flags env ∧ ∃ err, main flags env w =
          ⟨msgs.map .println ++ ([.newClient token (.ok ()),
            .workspacesRead org ws (.ok wsh), .runsCreate wsh (.ok id)] ++
            (pendingEvents (w.runsRead id) id 0 m ++
              [.runsRead id (.ok RunApplied), .println msgFinished, .println msgDeleting,
                .workspacesDelete org ws (.error err)])), some (.fatalErr err)⟩) ∨
        (ConfigResolved flags env ∧ main flags env w =
          ⟨msgs.map .println ++ ([.newClient token (.ok ()),
            .workspacesRead org ws (.ok wsh), .runsCreate wsh (.ok id)] ++
            (pendingEvents (w.runsRead id) id 0 m ++
              [.runsRead id (.ok RunApplied), .println msgFinished, .println msgDeleting,
                .workspacesDelete org ws (.ok ())])), none⟩)) := by
  have vac : ∀ k, k < 0 → Pending (w.runsRead "" k) := fun k hk => absurd hk (Nat.not_lt_zero k)
  obtain ⟨msgs, h | h | h | h⟩ := main_cases flags env w
  · obtain ⟨h1, h2, h3⟩ := h
    refine ⟨[msgNoOrganization], "", "", "", "", "", 0, by omega, vac, Or.inl ⟨?_, by simp [h3]⟩⟩
    simp [OrganizationGiven, h1, h2]
  · obtain ⟨h0, h1, h2, h3⟩ := h
    refine ⟨msgs, "", "", "", "", "", 0, by omega, vac, Or.inr (Or.inl ⟨h0, ?_, h3⟩)⟩
    simp [WorkspaceGiven, h1, h2]
  · obtain ⟨h0, h1, h2, h3⟩ := h
    refine ⟨msgs, "", "", "", "", "", 0, by omega, vac, Or.inr (Or.inr (Or.inl ⟨h0, h1, ?_, h3⟩))⟩
    rintro ⟨token, ht, hne⟩
    rcases h2 with h2 | h2
    · rw [h2] at ht; cases ht
    · rw [h2] at ht; cases ht; exact hne rfl
  · obtain ⟨h0, h1, org, ws, token, ht, hne, h3⟩ := h
    have hres : ConfigResolved flags env := ⟨h0, h1, token, ht, hne⟩
    rcases run_cases w org ws token with ⟨err, hr⟩ | ⟨u, err, hr⟩ | ⟨u, wsh, err, hr⟩ |
      ⟨u, wsh, id, hr⟩
    · exact ⟨msgs, org, ws, token, "", "", 0, by omega, vac,
        Or.inr (Or.inr (Or.inr (Or.inl ⟨hres, err, by rw [h3, hr]; rfl⟩)))⟩
    · exact ⟨msgs, org, ws, token, "", "", 0, by omega, vac,
        Or.inr (Or.inr (Or.inr (Or.inr (Or.inl ⟨hres, err, by rw [h3, hr]; rfl⟩))))⟩
    · exact ⟨msgs, org, ws, token, wsh, "", 0, by omega, vac,
        Or.inr (Or.inr (Or.inr (Or.inr (Or.inr (Or.inl ⟨hres, err, by rw [h3, hr]; rfl⟩)))))⟩
    · obtain ⟨m, hm, hp, hpd⟩ := pollAndDelete_cases w org ws id
      refine ⟨msgs, org, ws, token, wsh, id, m, hm, hp, ?_⟩
      rcases hpd with ⟨err, -, hpd⟩ | ⟨-, hpd⟩ | ⟨hm360, hp360, hpd⟩ | ⟨err, -, -, hpd⟩ |
        ⟨-, -, hpd⟩
      · exact Or.inr (Or.inr (Or.inr (Or.inr (Or.inr (Or.inr (Or.inl
          ⟨hres, err, by rw [h3, hr, hpd]; rfl⟩))))))
      · exact Or.inr (Or.inr (Or.inr (Or.inr (Or.inr (Or.inr (Or.inr (Or.inl
          ⟨hres, by rw [h3, hr, hpd]; rfl⟩)))))))
      · exact Or.inr (Or.inr (Or.inr (Or.inr (Or.inr (Or.inr (Or.inr (Or.inr (Or.inl
          ⟨hres, hm360, hp360, by rw [h3, hr, hpd]; rfl⟩))))))))
      · exact Or.inr (Or.inr (Or.inr (Or.inr (Or.inr (Or.inr (Or.inr (Or.inr (Or.inr (Or.inl
          ⟨hres, err, by rw [h3, hr, hpd]; rfl⟩)))))))))
      · exact Or.inr (Or.inr (Or.inr (Or.inr (Or.inr (Or.inr (Or.inr (Or.inr (Or.inr (Or.inr
          ⟨hres, by rw [h3, hr, hpd]; rfl⟩)))))))))

theorem countP_isDelete_pendingEvents (reads : Nat → Reply RunStatus) (runID : String) (n m : Nat) :
    List.countP Event.isDelete (pendingEvents reads runID n m) = 0 :=
  deleteCount_pendingEvents reads runID n m

theorem countP_isDelete_println (msgs : List String) :
    List.countP Event.isDelete (msgs.map Event.println) = 0 := by
  induction msgs with
  | nil => rfl
  | cons a t ih => simp [List.countP_cons, Event.isDelete]

theorem countP_isDelete_comp_println (msgs : List String) :
    List.countP (Event.isDelete ∘ Event.println) msgs = 0 := by
  rw [← List.countP_map]
  exact countP_isDelete_println msgs

theorem filter_isNetworkCall_println (msgs : List String) :
    List.filter Event.isNetworkCall (msgs.map Event.println) = [] := by
  induction msgs with
  | nil => rfl
  | cons a t ih => simp [List.filter_cons, Event.isNetworkCall]

theorem pendingThen_pending (n : Nat) (final : RunStatus) (runID : String) :
    ∀ k, k < n → Pending ((pendingThen n final).runsRead runID k) := by
  intro k hk
  exact ⟨"planning", by simp [pendingThen, hk], by decide, by decide⟩

theorem pendingThen_final (n : Nat) (final : RunStatus) (runID : String) :
    (pendingThen n final).runsRead runID n = .ok final := by
  simp [pendingThen]

/-- When the configuration resolves and client, lookup and run creation
succeed, `main` is these steps followed by the loop and the deletion. -/
theorem main_of_resolved (flags : Flags) (env : Environ) (w : World) (t1 t2 : List Event)
    (org ws token wsh id : String)
    (horg : resolveOrganization flags.organization env = (t1, .ok org))
    (hws : resolveWorkspace flags.workspace env = (t2, .ok ws))
    (htok : resolveToken env = .ok token)
    (hclient : w.newClient token = .ok ())
    (hlookup : w.workspacesRead org ws = .ok wsh)
    (hcreate : w.runsCreate wsh = .ok id) :
    main flags env w = (pollAndDelete w org ws id).after
      (t1 ++ t2 ++ [.newClient token (.ok ()), .workspacesRead org ws (.ok wsh),
        .runsCreate wsh (.ok id)]) := by
  simp [main, run, horg, hws, htok, hclient, hlookup, hcreate, Outcome.after]

theorem pollAndDelete_applied_at (w : World) (organizationName workspaceName runID : String)
    (m : Nat) (hm : m ≤ 360) (hp : ∀ k, k < m → Pending (w.runsRead runID k))
    (h : w.runsRead runID m = .ok RunApplied) :
    pollAndDelete w organizationName workspaceName runID =
      ⟨pendingEvents (w.runsRead runID) runID 0 m ++
        [.runsRead runID (.ok RunApplied), .println msgFinished, .println msgDeleting,
          .workspacesDelete organizationName workspaceName
            (w.workspacesDelete organizationName workspaceName)],
       match w.workspacesDelete organizationName workspaceName with
       | .ok _ => none
       | .error err => some (.fatalErr err)⟩ := by
  have hloop := pollLoop_applied_at (w.runsRead runID) runID 0 m hp
    (by simp [maxIterations]; omega) h
  rw [pollAndDelete_of_break w _ _ runID (by rw [hloop]), hloop]
  simp

theorem pollAndDelete_timeout (w : World) (organizationName workspaceName runID : String)
    (hp : ∀ k, k < 361 → Pending (w.runsRead runID k)) :
    pollAndDelete w organizationName workspaceName runID =
      ⟨pendingEvents (w.runsRead runID) runID 0 361, some fatalTimeout⟩ := by
  have hloop := pollLoop_timeout_at (w.runsRead runID) runID 0 360 hp (by simp [maxIterations])
  rw [pollAndDelete_of_fatal w _ _ runID fatalTimeout (by rw [hloop]), hloop]

theorem filterMap_sleep_println (msgs : List String) :
    List.filterMap Event.sleepSeconds? (msgs.map Event.println) = [] := by
  induction msgs with
  | nil => rfl
  | cons a t ih => simp [List.filterMap_cons, Event.sleepSeconds?]

theorem sleeps_println (msgs : List String) : sleeps (msgs.map Event.println) = [] :=
  filterMap_sleep_println msgs

/-- The spec's example run: planning, planning, applied. -/
theorem main_planning_planning_applied :
    main ⟨"o", "w"⟩ (envOf none none (some "t")) (pendingThen 2 "applied") =
      ⟨[.newClient "t" (.ok ()), .workspacesRead "o" "w" (.ok "ws-1"),
        .runsCreate "ws-1" (.ok "run-1"),
        .runsRead "run-1" (.ok "planning"), .printf fmtDestroying 0, .sleep 10,
        .runsRead "run-1" (.ok "planning"), .printf fmtDestroying 10, .sleep 10,
        .runsRead "run-1" (.ok "applied"),
        .println msgFinished, .println msgDeleting, .workspacesDelete "o" "w" (.ok ())],
       none⟩ := by
  rw [main_of_resolved ⟨"o", "w"⟩ (envOf none none (some "t")) (pendingThen 2 "applied")
    [] [] "o" "w" "t" "ws-1" "run-1" rfl rfl rfl rfl rfl rfl,
    pollAndDelete_applied_at (pendingThen 2 "applied") "o" "w" "run-1" 2 (by omega)
      (pendingThen_pending 2 "applied" "run-1") (pendingThen_final 2 "applied" "run-1")]
  rfl

theorem countP_pending_range (reads : Nat → Reply RunStatus) (m : Nat)
    (hp : ∀ k, k < m → Pending (reads k)) :
    List.countP (fun r => decide (Pending r)) ((List.range m).map reads) = m := by
  rw [List.countP_eq_length.2]
  · simp
  · intro r hr
    obtain ⟨k, hk, rfl⟩ := List.mem_map.1 hr
    simpa using hp k (List.mem_range.1 hk)

/-- Once `flag.Parse` has returned, `main` ends with exit status 0 if and only
if the configuration is resolved and its calls to the remote service are a
successful lookup, a successful run creation, at most 360 pending reads followed
by a read returning applied, and a successful deletion. -/
theorem main_exit_zero_iff (flags : Flags) (env : Environ) (w : World) :
    ((main flags env w).exitStatus = 0 ↔
      ConfigResolved flags env ∧
      ∃ (org ws wsh id : String) (pend : List (Reply RunStatus)),
        pend.length ≤ 360 ∧ (∀ r, r ∈ pend → Pending r) ∧
        networkCalls (main flags env w).trace =
          [.workspacesRead org ws (.ok wsh), .runsCreate wsh (.ok id)] ++
            (pend ++ [Reply.ok RunApplied]).map (Event.runsRead id) ++
            [.workspacesDelete org ws (.ok ())]) ∧
    (((main flags env w).exitStatus = 0 ∧ (main flags env w).fatal = none) ∨
      ((main flags env w).exitStatus = 1 ∧ ∃ f, (main flags env w).fatal = some f)) ∧
    (¬ ConfigResolved flags env → (main flags env w).exitStatus = 1) ∧
    (∀ e, e ∈ (main flags env w).trace → e.failed = true → (main flags env w).exitStatus = 1) ∧
    (∀ runID, Event.runsRead runID (.ok RunErrored) ∈ (main flags env w).trace →
      (main flags env w).exitStatus = 1) ∧
    ((main flags env w).fatal = some (Fatal.fatal msgTimeout) →
      (main flags env w).exitStatus = 1) := by
  obtain ⟨msgs, org, ws, token, wsh, id, m, hm, hp, h⟩ := main_leaves flags env w
  have hD : ∀ a b r, Event.workspacesDelete a b r ∉ pendingEvents (w.runsRead id) id 0 m := by
    intro a b r h
    rcases mem_pendingEvents_index _ _ _ _ _ h with ⟨k, -, h'⟩ | ⟨v, h'⟩ | h' <;> cases h'
  have hE : ∀ id', Event.runsRead id' (.ok RunErrored) ∉ pendingEvents (w.runsRead id) id 0 m :=
    fun id' h => not_pending_errored (runsRead_mem_pendingEvents hp h)
  have hF : ∀ e, e ∈ pendingEvents (w.runsRead id) id 0 m → e.failed = false := by
    intro e he
    rcases mem_pendingEvents_index _ _ _ _ _ he with ⟨k, hk, h'⟩ | ⟨v, h'⟩ | h'
    · obtain ⟨s, hs, -, -⟩ := hp k hk
      rw [h', hs]; rfl
    · rw [h']; rfl
    · rw [h']; rfl
  have ne2 : RunApplied ≠ RunErrored := by decide
  -- in a failing leaf no successful delete is among the network calls
  have key : ∀ t : List Event, (∀ a b, Event.workspacesDelete a b (.ok ()) ∉ t) →
      ¬ ∃ (org ws wsh id : String) (pend : List (Reply RunStatus)),
        pend.length ≤ 360 ∧ (∀ r, r ∈ pend → Pending r) ∧
        networkCalls t =
          [.workspacesRead org ws (.ok wsh), .runsCreate wsh (.ok id)] ++
            (pend ++ [Reply.ok RunApplied]).map (Event.runsRead id) ++
            [.workspacesDelete org ws (.ok ())] := by
    rintro t ht ⟨org, ws, wsh, id, pend, -, -, heq⟩
    have hmem : Event.workspacesDelete org ws (.ok ()) ∈ networkCalls t := by
      rw [heq]; simp
    exact ht org ws (List.mem_of_mem_filter hmem)
  rcases h with ⟨h0, h⟩ | ⟨h1, h0, h⟩ | ⟨h1, h2, h0, h⟩ | ⟨h0, err, h⟩ | ⟨h0, err, h⟩ |
    ⟨h0, err, h⟩ | ⟨h0, err, h⟩ | ⟨h0, h⟩ | ⟨h0, hm360, hp360, h⟩ | ⟨h0, err, h⟩ | ⟨h0, h⟩
  · have hc : ¬ ConfigResolved flags env := fun hc => h0 hc.1
    rw [h]
    simp [Outcome.exitStatus, hc]
  · have hc : ¬ ConfigResolved flags env := fun hc => h0 hc.2.1
    rw [h]
    simp [Outcome.exitStatus, hc]
  · have hc : ¬ ConfigResolved flags env := fun hc => h0 hc.2.2
    rw [h]
    simp [Outcome.exitStatus, hc]
  · rw [h]
    refine ⟨?_, by simp [Outcome.exitStatus], by simp [Outcome.exitStatus],
      by simp [Outcome.exitStatus], by simp [Outcome.exitStatus], by simp [Outcome.exitStatus]⟩
    refine ⟨fun hx => absurd hx (by simp [Outcome.exitStatus]),
      fun hx => absurd hx.2 (key _ ?_)⟩
    simp
  · rw [h]
    refine ⟨?_, by simp [Outcome.exitStatus], by simp [Outcome.exitStatus],
      by simp [Outcome.exitStatus], by simp [Outcome.exitStatus], by simp [Outcome.exitStatus]⟩
    refine ⟨fun hx => absurd hx (by simp [Outcome.exitStatus]),
      fun hx => absurd hx.2 (key _ ?_)⟩
    simp
  · rw [h]
    refine ⟨?_, by simp [Outcome.exitStatus], by simp [Outcome.exitStatus],
      by simp [Outcome.exitStatus], by simp [Outcome.exitStatus], by simp [Outcome.exitStatus]⟩
    refine ⟨fun hx => absurd hx (by simp [Outcome.exitStatus]),
      fun hx => absurd hx.2 (key _ ?_)⟩
    simp
  · rw [h]
    refine ⟨?_, by simp [Outcome.exitStatus], by simp [Outcome.exitStatus],
      by simp [Outcome.exitStatus], by simp [Outcome.exitStatus], by simp [Outcome.exitStatus]⟩
    refine ⟨fun hx => absurd hx (by simp [Outcome.exitStatus]),
      fun hx => absurd hx.2 (key _ ?_)⟩
    simp [hD]
  · rw [h]
    refine ⟨?_, by simp [Outcome.exitStatus], by simp [Outcome.exitStatus],
      by simp [Outcome.exitStatus], by simp [Outcome.exitStatus], by simp [Outcome.exitStatus]⟩
    refine ⟨fun hx => absurd hx (by simp [Outcome.exitStatus]),
      fun hx => absurd hx.2 (key _ ?_)⟩
    simp [hD]
  · rw [h]
    refine ⟨?_, by simp [Outcome.exitStatus], by simp [Outcome.exitStatus],
      by simp [Outcome.exitStatus], by simp [Outcome.exitStatus], by simp [Outcome.exitStatus]⟩
    refine ⟨fun hx => absurd hx (by simp [Outcome.exitStatus]),
      fun hx => absurd hx.2 (key _ ?_)⟩
    intro a b hab
    simp only [List.mem_append, List.mem_map, List.mem_cons, List.mem_singleton,
      List.not_mem_nil, or_false] at hab
    rcases hab with ⟨x, -, hx⟩ | hx | hx
    · cases hx
    · rcases hx with hx | hx | hx <;> cases hx
    · rcases mem_pendingEvents_index _ _ _ _ _ hx with ⟨k, -, h'⟩ | ⟨v, h'⟩ | h' <;> cases h'
  · rw [h]
    refine ⟨?_, by simp [Outcome.exitStatus], by simp [Outcome.exitStatus],
      by simp [Outcome.exitStatus], by simp [Outcome.exitStatus], by simp [Outcome.exitStatus]⟩
    refine ⟨fun hx => absurd hx (by simp [Outcome.exitStatus]),
      fun hx => absurd hx.2 (key _ ?_)⟩
    simp [hD]
  · rw [h]
    refine ⟨?_, by simp [Outcome.exitStatus], by simp [h0], ?_, ?_, by simp⟩
    · simp only [Outcome.exitStatus, true_iff]
      refine ⟨h0, org, ws, wsh, id, (List.range m).map (w.runsRead id), by simpa using hm, ?_, ?_⟩
      · intro r hr
        obtain ⟨k, hk, rfl⟩ := List.mem_map.1 hr
        exact hp k (List.mem_range.1 hk)
      · simp [networkCalls, List.filter_append, filter_isNetworkCall_println,
          networkCalls_pendingEvents, Event.isNetworkCall]
    · intro e he hf
      exfalso
      simp only [List.mem_append, List.mem_map, List.mem_cons, List.mem_singleton,
        List.not_mem_nil, or_false] at he
      rcases he with ⟨x, -, hx⟩ | hx | hx | hx
      · subst hx; simp [Event.failed] at hf
      · rcases hx with hx | hx | hx <;> subst hx <;> simp [Event.failed] at hf
      · rw [hF e hx] at hf; cases hf
      · rcases hx with hx | hx | hx | hx <;> subst hx <;> simp [Event.failed] at hf
    · intro runID hmem
      exfalso
      simp [hE] at hmem
      exact ne2 hmem.2.symm

/-- Once `flag.Parse` has returned, 361 sleeps in the trace of `main` mean that
the iteration cap was exceeded: `main` ended fatally. -/
theorem main_cap_exceeded_exit (flags : Flags) (env : Environ) (w : World)
    (h361 : (sleeps (main flags env w).trace).length = 361) :
    (main flags env w).exitStatus = 1 := by
  obtain ⟨msgs, org, ws, token, wsh, id, m, hm, hp, h⟩ := main_leaves flags env w
  rcases h with ⟨h0, h⟩ | ⟨-, h0, h⟩ | ⟨-, -, h0, h⟩ | ⟨h0, err, h⟩ | ⟨h0, err, h⟩ |
    ⟨h0, err, h⟩ | ⟨h0, err, h⟩ | ⟨h0, h⟩ | ⟨h0, hm360, hp360, h⟩ | ⟨h0, err, h⟩ | ⟨h0, h⟩ <;>
    rw [h] at h361 ⊢ <;>
    simp only [sleeps_append, sleeps_pendingEvents, sleeps_println, List.length_append,
      List.length_replicate, List.length_nil] at h361 <;>
    first
    | rfl
    | (exfalso; simp [sleeps, Event.sleepSeconds?] at h361; omega)

/-! ## The claims -/

/-- C1, evaluated on the code: with no flags, the organization variable set to
the empty string, a workspace and a token, `main` reports no configuration
error: it logs that the organization name was read from the variable, builds
the client and calls `client.Workspaces.Read` with the empty organization name;
the client refuses the name, and `main` ends through the `log.Fatal(err)` of
line 69 with the client's error, not through the configuration error of
line 34. -/
theorem main_empty_organization_variable :
    main ⟨"", ""⟩ (envOf (some "") (some "w") (some "t")) (pendingThen 0 "applied") =
      ⟨[.println msgNoOrganization, .println msgOrganizationRead,
        .println msgNoWorkspace, .println msgWorkspaceRead,
        .newClient "t" (.ok ()),
        .workspacesRead "" "w" (.error "invalid value for organization")],
       some (.fatalErr "invalid value for organization")⟩ := by
  decide

/-- C2: with an empty organization flag and the organization variable unset,
`main` ends fatally with a message naming `TERRAFORM_CLOUD_ORGANIZATION`, after
one log line; with the organization given, an empty workspace flag and the
workspace variable unset, it ends fatally with a message naming
`TERRAFORM_CLOUD_WORKSPACE`; in both cases the trace holds no call to the remote
service and no client construction. -/
theorem missing_name_fatal_before_network (flags : Flags) (env : Environ) (w : World) :
    (flags.organization = "" → env ENV_TERRAFORM_CLOUD_ORGANIZATION = none →
      main flags env w =
        ⟨[.println msgNoOrganization],
          some (Fatal.fatalf fmtOrganization ENV_TERRAFORM_CLOUD_ORGANIZATION)⟩) ∧
    ((flags.organization ≠ "" ∨ env ENV_TERRAFORM_CLOUD_ORGANIZATION ≠ none) →
      flags.workspace = "" → env ENV_TERRAFORM_CLOUD_WORKSPACE = none →
      (main flags env w).fatal =
        some (Fatal.fatalf fmtWorkspace ENV_TERRAFORM_CLOUD_WORKSPACE) ∧
      ∀ e, e ∈ (main flags env w).trace → e.isNetworkCall = false ∧ e.isNewClient = false) := by
  obtain ⟨msgs, h | h | h | h⟩ := main_cases flags env w
  · obtain ⟨h1, h2, h3⟩ := h
    refine ⟨fun _ _ => h3, fun horg => ?_⟩
    rcases horg with horg | horg
    · exact absurd h1 horg
    · exact absurd h2 horg
  · obtain ⟨h0, h1, h2, h3⟩ := h
    refine ⟨fun g1 g2 => ?_, fun _ _ _ => ?_⟩
    · rcases h0 with h0 | h0
      · exact absurd g1 h0
      · exact absurd g2 h0
    · rw [h3]
      refine ⟨rfl, ?_⟩
      intro e he
      obtain ⟨a, -, rfl⟩ := List.mem_map.1 he
      exact ⟨rfl, rfl⟩
  · obtain ⟨h0, h1, -, -⟩ := h
    refine ⟨fun g1 g2 => ?_, fun _ g1 g2 => ?_⟩
    · rcases h0 with h0 | h0
      · exact absurd g1 h0
      · exact absurd g2 h0
    · rcases h1 with h1 | h1
      · exact absurd g1 h1
      · exact absurd g2 h1
  · obtain ⟨h0, h1, -⟩ := h
    refine ⟨fun g1 g2 => ?_, fun _ g1 g2 => ?_⟩
    · rcases h0 with h0 | h0
      · exact absurd g1 h0
      · exact absurd g2 h0
    · rcases h1 with h1 | h1
      · exact absurd g1 h1
      · exact absurd g2 h1

/-- Witness of C2: an environment with neither name variable set, first, with
no organization flag and then with the organization flag only. -/
theorem missing_name_fatal_before_network_witness :
    main ⟨"", "w"⟩ (envOf none none (some "t")) (pendingThen 0 "applied") =
        ⟨[.println msgNoOrganization],
          some (Fatal.fatalf fmtOrganization ENV_TERRAFORM_CLOUD_ORGANIZATION)⟩ ∧
      (main ⟨"o", ""⟩ (envOf none none (some "t")) (pendingThen 0 "applied")).fatal =
        some (Fatal.fatalf fmtWorkspace ENV_TERRAFORM_CLOUD_WORKSPACE) ∧
      ∀ e, e ∈ (main ⟨"o", ""⟩ (envOf none none (some "t")) (pendingThen 0 "applied")).trace →
        e.isNetworkCall = false ∧ e.isNewClient = false :=
  ⟨(missing_name_fatal_before_network ⟨"", "w"⟩ (envOf none none (some "t"))
      (pendingThen 0 "applied")).1 rfl rfl,
    (missing_name_fatal_before_network ⟨"o", ""⟩ (envOf none none (some "t"))
      (pendingThen 0 "applied")).2 (Or.inl (by decide)) rfl rfl⟩

/-- C3: with organization and workspace given, an unset or empty token variable
makes `main` end fatally with a message naming `TERRAFORM_CLOUD_TOKEN`, with no
client construction and no call to the remote service in the trace; and with
the variable set to a non-empty string `main` never ends with that message. -/
theorem missing_token_fatal_before_client (flags : Flags) (env : Environ) (w : World)
    (horg : flags.organization ≠ "" ∨ env ENV_TERRAFORM_CLOUD_ORGANIZATION ≠ none)
    (hws : flags.workspace ≠ "" ∨ env ENV_TERRAFORM_CLOUD_WORKSPACE ≠ none) :
    ((env ENV_TERRAFORM_CLOUD_TOKEN = none ∨ env ENV_TERRAFORM_CLOUD_TOKEN = some "") →
      (main flags env w).fatal = some (Fatal.fatalf fmtToken ENV_TERRAFORM_CLOUD_TOKEN) ∧
      ∀ e, e ∈ (main flags env w).trace → e.isNewClient = false ∧ e.isNetworkCall = false) ∧
    (∀ token, env ENV_TERRAFORM_CLOUD_TOKEN = some token → token ≠ "" →
      (main flags env w).fatal ≠ some (Fatal.fatalf fmtToken ENV_TERRAFORM_CLOUD_TOKEN)) := by
  have hne : ∀ token, env ENV_TERRAFORM_CLOUD_TOKEN = some token → token ≠ "" →
      ¬ (env ENV_TERRAFORM_CLOUD_TOKEN = none ∨ env ENV_TERRAFORM_CLOUD_TOKEN = some "") := by
    rintro token ht hne (h | h)
    · rw [h] at ht; cases ht
    · rw [h] at ht; cases ht; exact hne rfl
  obtain ⟨msgs, h | h | h | h⟩ := main_cases flags env w
  · obtain ⟨h1, h2, -⟩ := h
    rcases horg with horg | horg
    · exact absurd h1 horg
    · exact absurd h2 horg
  · obtain ⟨-, h1, h2, -⟩ := h
    rcases hws with hws | hws
    · exact absurd h1 hws
    · exact absurd h2 hws
  · obtain ⟨-, -, h2, h3⟩ := h
    refine ⟨fun _ => ?_, fun token ht hn => absurd h2 (hne token ht hn)⟩
    rw [h3]
    refine ⟨rfl, ?_⟩
    intro e he
    obtain ⟨a, -, rfl⟩ := List.mem_map.1 he
    exact ⟨rfl, rfl⟩
  · obtain ⟨-, -, org, ws, token, ht, hn, h3⟩ := h
    refine ⟨fun h2 => absurd h2 (hne token ht hn), fun _ _ _ => ?_⟩
    rw [h3]
    rcases run_cases w org ws token with ⟨err, hr⟩ | ⟨u, err, hr⟩ | ⟨u, wsh, err, hr⟩ |
      ⟨u, wsh, id, hr⟩
    · rw [hr]; simp [Outcome.after]
    · rw [hr]; simp [Outcome.after]
    · rw [hr]; simp [Outcome.after]
    · rw [hr]
      obtain ⟨m, -, -, hpd⟩ := pollAndDelete_cases w org ws id
      rcases hpd with ⟨err, -, hpd⟩ | ⟨-, hpd⟩ | ⟨-, -, hpd⟩ | ⟨err, -, -, hpd⟩ | ⟨-, -, hpd⟩ <;>
        rw [hpd] <;>
        simp [Outcome.after, fatalErrored, fatalTimeout, show fmtErrored ≠ fmtToken by decide]

/-- Witness of C3: names given by flags, the token first set to the empty
string and then to a non-empty one. -/
theorem missing_token_fatal_before_client_witness :
    ((main ⟨"o", "w"⟩ (envOf none none (some "")) (pendingThen 0 "applied")).fatal =
        some (Fatal.fatalf fmtToken ENV_TERRAFORM_CLOUD_TOKEN) ∧
      ∀ e, e ∈ (main ⟨"o", "w"⟩ (envOf none none (some "")) (pendingThen 0 "applied")).trace →
        e.isNewClient = false ∧ e.isNetworkCall = false) ∧
    (main ⟨"o", "w"⟩ (envOf none none (some "t")) (pendingThen 0 "applied")).fatal ≠
        some (Fatal.fatalf fmtToken ENV_TERRAFORM_CLOUD_TOKEN) :=
  ⟨(missing_token_fatal_before_client ⟨"o", "w"⟩ (envOf none none (some ""))
      (pendingThen 0 "applied") (Or.inl (by decide)) (Or.inl (by decide))).1 (Or.inr rfl),
    (missing_token_fatal_before_client ⟨"o", "w"⟩ (envOf none none (some "t"))
      (pendingThen 0 "applied") (Or.inl (by decide)) (Or.inl (by decide))).2 "t" rfl (by decide)⟩

/-- C4: if the first `n ≤ 360` reads succeed with statuses that are neither
applied nor errored and read `n + 1` returns applied, the loop performs exactly
`n + 1` reads and exactly `n` sleeps of 10 seconds and is left through `break`;
after it the workspace deletion is called, as the last action of the program. -/
theorem poll_success_reads_sleeps_delete (w : World)
    (organizationName workspaceName runID : String) (n : Nat) (hn : n ≤ 360)
    (hpending : ∀ k, k < n → Pending (w.runsRead runID k))
    (happlied : w.runsRead runID n = .ok RunApplied) :
    (pollLoop (w.runsRead runID) runID 0).fatal = none ∧
    (readReplies (pollLoop (w.runsRead runID) runID 0).trace).length = n + 1 ∧
    sleeps (pollLoop (w.runsRead runID) runID 0).trace = List.replicate n 10 ∧
    (pollAndDelete w organizationName workspaceName runID).trace =
      (pollLoop (w.runsRead runID) runID 0).trace ++ [.println msgDeleting,
        .workspacesDelete organizationName workspaceName
          (w.workspacesDelete organizationName workspaceName)] ∧
    (readReplies (pollAndDelete w organizationName workspaceName runID).trace).length = n + 1 ∧
    sleeps (pollAndDelete w organizationName workspaceName runID).trace = List.replicate n 10 := by
  have hloop := pollLoop_applied_at (w.runsRead runID) runID 0 n hpending
    (by simp [maxIterations]; omega) happlied
  have hfatal : (pollLoop (w.runsRead runID) runID 0).fatal = none := by rw [hloop]
  have hreads : (readReplies (pollLoop (w.runsRead runID) runID 0).trace).length = n + 1 := by
    rw [hloop]
    simp only [readReplies_append, readReplies_pendingEvents]
    simp [readReplies, Event.readReply?]
  have hsleeps : sleeps (pollLoop (w.runsRead runID) runID 0).trace = List.replicate n 10 := by
    rw [hloop]
    simp only [sleeps_append, sleeps_pendingEvents]
    simp [sleeps, Event.sleepSeconds?]
  rw [pollAndDelete_of_break w organizationName workspaceName runID hfatal]
  refine ⟨hfatal, hreads, hsleeps, rfl, ?_, ?_⟩
  · rw [readReplies_append, List.length_append, hreads]
    simp [readReplies, Event.readReply?]
  · rw [sleeps_append, hsleeps]
    simp [sleeps, Event.sleepSeconds?]

/-- Witness of C4: the reads planning, planning, applied give 3 reads, 2 sleeps
of 10 seconds, a normal exit of the loop and then the deletion. -/
theorem poll_success_reads_sleeps_delete_witness :
    (2 ≤ 360 ∧ (∀ k, k < 2 → Pending ((pendingThen 2 "applied").runsRead "run-1" k)) ∧
      (pendingThen 2 "applied").runsRead "run-1" 2 = .ok RunApplied) ∧
    ((pollLoop ((pendingThen 2 "applied").runsRead "run-1") "run-1" 0).fatal = none ∧
      (readReplies (pollLoop ((pendingThen 2 "applied").runsRead "run-1") "run-1" 0).trace).length
        = 3 ∧
      sleeps (pollLoop ((pendingThen 2 "applied").runsRead "run-1") "run-1" 0).trace = [10, 10] ∧
      (pollAndDelete (pendingThen 2 "applied") "o" "w" "run-1").trace =
        (pollLoop ((pendingThen 2 "applied").runsRead "run-1") "run-1" 0).trace ++
          [.println msgDeleting, .workspacesDelete "o" "w" (.ok ())] ∧
      (readReplies (pollAndDelete (pendingThen 2 "applied") "o" "w" "run-1").trace).length = 3 ∧
      sleeps (pollAndDelete (pendingThen 2 "applied") "o" "w" "run-1").trace = [10, 10]) :=
  ⟨⟨by decide, pendingThen_pending 2 "applied" "run-1", pendingThen_final 2 "applied" "run-1"⟩,
    poll_success_reads_sleeps_delete (pendingThen 2 "applied") "o" "w" "run-1" 2 (by decide)
      (pendingThen_pending 2 "applied" "run-1") (pendingThen_final 2 "applied" "run-1")⟩

/-- C5: if the first `n ≤ 360` reads succeed with statuses that are neither
applied nor errored and read `n + 1` returns errored, the program performs
exactly `n + 1` reads and `n` sleeps, ends fatally with that read as its last
action, and never calls the workspace deletion. -/
theorem poll_errored_fatal_no_delete (w : World)
    (organizationName workspaceName runID : String) (n : Nat) (hn : n ≤ 360)
    (hpending : ∀ k, k < n → Pending (w.runsRead runID k))
    (herrored : w.runsRead runID n = .ok RunErrored) :
    (pollAndDelete w organizationName workspaceName runID).fatal =
      some (Fatal.fatalf fmtErrored "<nil>") ∧
    (readReplies (pollAndDelete w organizationName workspaceName runID).trace).length = n + 1 ∧
    sleeps (pollAndDelete w organizationName workspaceName runID).trace = List.replicate n 10 ∧
    (pollAndDelete w organizationName workspaceName runID).trace.getLast? =
      some (.runsRead runID (.ok RunErrored)) ∧
    deleteCount (pollAndDelete w organizationName workspaceName runID).trace = 0 := by
  have hloop := pollLoop_errored_at (w.runsRead runID) runID 0 n hpending
    (by simp [maxIterations]; omega) herrored
  have hfatal : (pollLoop (w.runsRead runID) runID 0).fatal = some fatalErrored := by rw [hloop]
  rw [pollAndDelete_of_fatal w organizationName workspaceName runID _ hfatal, hloop]
  refine ⟨rfl, ?_, ?_, ?_, ?_⟩
  · simp only [readReplies_append, readReplies_pendingEvents]
    simp [readReplies, Event.readReply?]
  · simp only [sleeps_append, sleeps_pendingEvents]
    simp [sleeps, Event.sleepSeconds?]
  · simp
  · simp only [deleteCount_append, deleteCount_pendingEvents]
    simp [deleteCount, Event.isDelete]

/-- Witness of C5: the reads planning, errored give 2 reads, a fatal end right
after the second read and no deletion. -/
theorem poll_errored_fatal_no_delete_witness :
    (1 ≤ 360 ∧ (∀ k, k < 1 → Pending ((pendingThen 1 "errored").runsRead "run-1" k)) ∧
      (pendingThen 1 "errored").runsRead "run-1" 1 = .ok RunErrored) ∧
    ((pollAndDelete (pendingThen 1 "errored") "o" "w" "run-1").fatal =
        some (Fatal.fatalf fmtErrored "<nil>") ∧
      (readReplies (pollAndDelete (pendingThen 1 "errored") "o" "w" "run-1").trace).length = 2 ∧
      sleeps (pollAndDelete (pendingThen 1 "errored") "o" "w" "run-1").trace = [10] ∧
      (pollAndDelete (pendingThen 1 "errored") "o" "w" "run-1").trace.getLast? =
        some (.runsRead "run-1" (.ok RunErrored)) ∧
      deleteCount (pollAndDelete (pendingThen 1 "errored") "o" "w" "run-1").trace = 0) :=
  ⟨⟨by decide, pendingThen_pending 1 "errored" "run-1", pendingThen_final 1 "errored" "run-1"⟩,
    poll_errored_fatal_no_delete (pendingThen 1 "errored") "o" "w" "run-1" 1 (by decide)
      (pendingThen_pending 1 "errored" "run-1") (pendingThen_final 1 "errored" "run-1")⟩

/-- C6: if the first 361 reads succeed with statuses that are neither applied
nor errored, the program performs exactly 361 reads, ends fatally with the
timeout message and never calls the workspace deletion; and whatever the reads
return, the program ends after at most 361 reads. -/
theorem poll_timeout_after_361_reads (w : World)
    (organizationName workspaceName runID : String) :
    ((∀ k, k < 361 → Pending (w.runsRead runID k)) →
      (pollAndDelete w organizationName workspaceName runID).fatal =
        some (Fatal.fatal msgTimeout) ∧
      (readReplies (pollAndDelete w organizationName workspaceName runID).trace).length = 361 ∧
      deleteCount (pollAndDelete w organizationName workspaceName runID).trace = 0) ∧
    (readReplies (pollAndDelete w organizationName workspaceName runID).trace).length ≤ 361 := by
  constructor
  · intro hp
    have hloop := pollLoop_timeout_at (w.runsRead runID) runID 0 360 hp (by simp [maxIterations])
    have hfatal : (pollLoop (w.runsRead runID) runID 0).fatal = some fatalTimeout := by rw [hloop]
    rw [pollAndDelete_of_fatal w organizationName workspaceName runID _ hfatal, hloop]
    refine ⟨rfl, ?_, ?_⟩
    · simp [readReplies_pendingEvents]
    · simp [deleteCount_pendingEvents]
  · obtain ⟨m, hm, -, hend⟩ := pollLoop_ends (w.runsRead runID) runID 0 (Nat.zero_le _)
    have hfacts := (hend.facts hm).1
    have hcap : maxIterations + 1 - 0 = 361 := by simp [maxIterations]
    rw [hcap] at hfacts
    cases hf : (pollLoop (w.runsRead runID) runID 0).fatal with
    | some f =>
      rw [pollAndDelete_of_fatal w organizationName workspaceName runID f hf]
      exact hfacts
    | none =>
      rw [pollAndDelete_of_break w organizationName workspaceName runID hf]
      simp only [readReplies_append, List.length_append]
      simpa [readReplies, Event.readReply?] using hfacts

/-- Witness of C6: a run that is read as planning 361 times ends in the timeout
after exactly 361 reads, without a deletion. -/
theorem poll_timeout_after_361_reads_witness :
    (∀ k, k < 361 → Pending ((pendingThen 361 "applied").runsRead "run-1" k)) ∧
    ((pollAndDelete (pendingThen 361 "applied") "o" "w" "run-1").fatal =
        some (Fatal.fatal msgTimeout) ∧
      (readReplies (pollAndDelete (pendingThen 361 "applied") "o" "w" "run-1").trace).length
        = 361 ∧
      deleteCount (pollAndDelete (pendingThen 361 "applied") "o" "w" "run-1").trace = 0) :=
  ⟨pendingThen_pending 361 "applied" "run-1",
    (poll_timeout_after_361_reads (pendingThen 361 "applied") "o" "w" "run-1").1
      (pendingThen_pending 361 "applied" "run-1")⟩

/-- Counterexample to C7: the first 360 reads succeed with the status planning,
the 361st read returns applied, and `main` does not time out: it deletes the
workspace and returns with exit status 0. -/
theorem cap_360_counterexample :
    (∀ k, k < 360 → Pending ((pendingThen 360 "applied").runsRead "run-1" k)) ∧
    (main ⟨"o", "w"⟩ (envOf none none (some "t")) (pendingThen 360 "applied")).fatal = none ∧
    (main ⟨"o", "w"⟩ (envOf none none (some "t")) (pendingThen 360 "applied")).exitStatus = 0 ∧
    deleteCount
      (main ⟨"o", "w"⟩ (envOf none none (some "t")) (pendingThen 360 "applied")).trace = 1 := by
  refine ⟨pendingThen_pending 360 "applied" "run-1", ?_⟩
  rw [main_of_resolved ⟨"o", "w"⟩ (envOf none none (some "t")) (pendingThen 360 "applied")
    [] [] "o" "w" "t" "ws-1" "run-1" rfl rfl rfl rfl rfl rfl,
    pollAndDelete_applied_at (pendingThen 360 "applied") "o" "w" "run-1" 360 (by omega)
      (pendingThen_pending 360 "applied" "run-1") (pendingThen_final 360 "applied" "run-1")]
  refine ⟨rfl, rfl, ?_⟩
  simp only [Outcome.after, deleteCount_append, deleteCount_pendingEvents]
  simp [deleteCount, Event.isDelete, pendingThen]

/-- C7, amended: `main` never completes more than 361 iterations that end in
the sleep; and when the configuration resolves, client, lookup and run creation
succeed and the first 361 reads succeed with statuses that are neither applied
nor errored, `main` ends fatally with the timeout message after exactly 361
reads and 361 sleeps, whatever later reads would return. -/
theorem timeout_after_361_pending_reads (flags : Flags) (env : Environ) (w : World) :
    (sleeps (main flags env w).trace).length ≤ 361 ∧
    ∀ (t1 t2 : List Event) (org ws token wsh id : String),
      resolveOrganization flags.organization env = (t1, .ok org) →
      resolveWorkspace flags.workspace env = (t2, .ok ws) →
      resolveToken env = .ok token →
      w.newClient token = .ok () →
      w.workspacesRead org ws = .ok wsh →
      w.runsCreate wsh = .ok id →
      (∀ k, k < 361 → Pending (w.runsRead id k)) →
      (main flags env w).fatal = some (Fatal.fatal msgTimeout) ∧
      (main flags env w).exitStatus = 1 ∧
      (readReplies (main flags env w).trace).length = 361 ∧
      (sleeps (main flags env w).trace).length = 361 := by
  constructor
  · obtain ⟨msgs, org, ws, token, wsh, id, m, hm, hp, h⟩ := main_leaves flags env w
    rcases h with ⟨h0, h⟩ | ⟨-, h0, h⟩ | ⟨-, -, h0, h⟩ | ⟨h0, err, h⟩ | ⟨h0, err, h⟩ |
      ⟨h0, err, h⟩ | ⟨h0, err, h⟩ | ⟨h0, h⟩ | ⟨h0, hm360, hp360, h⟩ | ⟨h0, err, h⟩ | ⟨h0, h⟩ <;>
      rw [h] <;>
      simp only [sleeps_append, sleeps_pendingEvents, sleeps_println, List.length_append,
        List.length_replicate, List.length_nil] <;>
      simp [sleeps, Event.sleepSeconds?] <;> omega
  · intro t1 t2 org ws token wsh id horg hws htok hclient hlookup hcreate hp
    have ht1 : sleeps t1 = [] ∧ readReplies t1 = [] := by
      rcases resolveOrganization_cases flags.organization env with ⟨-, -, h⟩ | ⟨-, m1, n1, h⟩
      · rw [h] at horg; cases horg
      · rw [h] at horg; cases horg
        exact ⟨sleeps_println m1, by
          induction m1 with
          | nil => rfl
          | cons a t ih => simp [readReplies, List.filterMap_cons, Event.readReply?]⟩
    have ht2 : sleeps t2 = [] ∧ readReplies t2 = [] := by
      rcases resolveWorkspace_cases flags.workspace env with ⟨-, -, h⟩ | ⟨-, m1, n1, h⟩
      · rw [h] at hws; cases hws
      · rw [h] at hws; cases hws
        exact ⟨sleeps_println m1, by
          induction m1 with
          | nil => rfl
          | cons a t ih => simp [readReplies, List.filterMap_cons, Event.readReply?]⟩
    rw [main_of_resolved flags env w t1 t2 org ws token wsh id horg hws htok hclient hlookup
      hcreate, pollAndDelete_timeout w org ws id hp]
    refine ⟨rfl, rfl, ?_, ?_⟩
    · simp only [Outcome.after, readReplies_append, readReplies_pendingEvents, ht1.2, ht2.2,
        List.length_append, List.length_map, List.length_range, List.length_nil]
      simp [readReplies, Event.readReply?]
    · simp only [Outcome.after, sleeps_append, sleeps_pendingEvents, ht1.1, ht2.1,
        List.length_append, List.length_replicate, List.length_nil]
      simp [sleeps, Event.sleepSeconds?]

/-- Witness of C7, amended: names given by flags, a token, and a run read as
planning 361 times. -/
theorem timeout_after_361_pending_reads_witness :
    (∀ k, k < 361 → Pending ((pendingThen 361 "applied").runsRead "run-1" k)) ∧
    (main ⟨"o", "w"⟩ (envOf none none (some "t")) (pendingThen 361 "applied")).fatal =
      some (Fatal.fatal msgTimeout) ∧
    (main ⟨"o", "w"⟩ (envOf none none (some "t")) (pendingThen 361 "applied")).exitStatus = 1 ∧
    (readReplies
      (main ⟨"o", "w"⟩ (envOf none none (some "t")) (pendingThen 361 "applied")).trace).length
        = 361 ∧
    (sleeps
      (main ⟨"o", "w"⟩ (envOf none none (some "t")) (pendingThen 361 "applied")).trace).length
        = 361 :=
  ⟨pendingThen_pending 361 "applied" "run-1",
    (timeout_after_361_pending_reads ⟨"o", "w"⟩ (envOf none none (some "t"))
      (pendingThen 361 "applied")).2 [] [] "o" "w" "t" "ws-1" "run-1" rfl rfl rfl rfl rfl rfl
      (pendingThen_pending 361 "applied" "run-1")⟩

/-- C8: in every execution of `main` the workspace deletion is called if and
only if some run read returned applied, and at most once; it is not called when
a read returned errored, when a read failed, when the timeout was reached, when
the configuration is not resolved, or when client construction, lookup or run
creation failed. -/
theorem delete_iff_applied_read (flags : Flags) (env : Environ) (w : World) :
    (0 < deleteCount (main flags env w).trace ↔
      ∃ runID, Event.runsRead runID (.ok RunApplied) ∈ (main flags env w).trace) ∧
    deleteCount (main flags env w).trace ≤ 1 ∧
    (∀ runID, Event.runsRead runID (.ok RunErrored) ∈ (main flags env w).trace →
      deleteCount (main flags env w).trace = 0) ∧
    (∀ runID err, Event.runsRead runID (.error err) ∈ (main flags env w).trace →
      deleteCount (main flags env w).trace = 0) ∧
    ((main flags env w).fatal = some (Fatal.fatal msgTimeout) →
      deleteCount (main flags env w).trace = 0) ∧
    (¬ ConfigResolved flags env → deleteCount (main flags env w).trace = 0) ∧
    (∀ token err, Event.newClient token (.error err) ∈ (main flags env w).trace →
      deleteCount (main flags env w).trace = 0) ∧
    (∀ org ws err, Event.workspacesRead org ws (.error err) ∈ (main flags env w).trace →
      deleteCount (main flags env w).trace = 0) ∧
    (∀ wsh err, Event.runsCreate wsh (.error err) ∈ (main flags env w).trace →
      deleteCount (main flags env w).trace = 0) := by
  obtain ⟨msgs, org, ws, token, wsh, id, m, hm, hp, h⟩ := main_leaves flags env w
  have hA : ∀ id', Event.runsRead id' (.ok RunApplied) ∉ pendingEvents (w.runsRead id) id 0 m :=
    fun id' h => not_pending_applied (runsRead_mem_pendingEvents hp h)
  have hE : ∀ id', Event.runsRead id' (.ok RunErrored) ∉ pendingEvents (w.runsRead id) id 0 m :=
    fun id' h => not_pending_errored (runsRead_mem_pendingEvents hp h)
  have hR : ∀ id' err, Event.runsRead id' (.error err) ∉ pendingEvents (w.runsRead id) id 0 m :=
    fun id' err h => not_pending_error err (runsRead_mem_pendingEvents hp h)
  have hN : ∀ t r, Event.newClient t r ∉ pendingEvents (w.runsRead id) id 0 m := by
    intro t r h
    rcases mem_pendingEvents_index _ _ _ _ _ h with ⟨k, -, h'⟩ | ⟨v, h'⟩ | h' <;> cases h'
  have hW : ∀ a b r, Event.workspacesRead a b r ∉ pendingEvents (w.runsRead id) id 0 m := by
    intro a b r h
    rcases mem_pendingEvents_index _ _ _ _ _ h with ⟨k, -, h'⟩ | ⟨v, h'⟩ | h' <;> cases h'
  have hC : ∀ a r, Event.runsCreate a r ∉ pendingEvents (w.runsRead id) id 0 m := by
    intro a r h
    rcases mem_pendingEvents_index _ _ _ _ _ h with ⟨k, -, h'⟩ | ⟨v, h'⟩ | h' <;> cases h'
  have ne1 : RunErrored ≠ RunApplied := by decide
  have ne2 : RunApplied ≠ RunErrored := by decide
  rcases h with ⟨h0, h⟩ | ⟨-, h0, h⟩ | ⟨-, -, h0, h⟩ | ⟨h0, err, h⟩ | ⟨h0, err, h⟩ |
    ⟨h0, err, h⟩ | ⟨h0, err, h⟩ | ⟨h0, h⟩ | ⟨h0, hm360, hp360, h⟩ | ⟨h0, err, h⟩ | ⟨h0, h⟩
  · rw [h]; simp [deleteCount, countP_isDelete_println, countP_isDelete_comp_println, Event.isDelete]
  · rw [h]; simp [deleteCount, countP_isDelete_println, countP_isDelete_comp_println, Event.isDelete]
  · rw [h]; simp [deleteCount, countP_isDelete_println, countP_isDelete_comp_println, Event.isDelete]
  · rw [h]; simp [deleteCount, countP_isDelete_println, countP_isDelete_comp_println, Event.isDelete]
  · rw [h]; simp [deleteCount, countP_isDelete_println, countP_isDelete_comp_println, Event.isDelete]
  · rw [h]; simp [deleteCount, countP_isDelete_println, countP_isDelete_comp_println, Event.isDelete]
  · rw [h]
    simp [deleteCount, countP_isDelete_println, countP_isDelete_comp_println, countP_isDelete_pendingEvents, Event.isDelete,
      hA, hE, hR, hN, hW, hC]
  · rw [h]
    simp [deleteCount, countP_isDelete_println, countP_isDelete_comp_println, countP_isDelete_pendingEvents, Event.isDelete,
      hA, hE, hR, hN, hW, hC, ne1, ne2]
  · subst hm360
    have hp' : ∀ k, k < 361 → Pending (w.runsRead id k) := by
      intro k hk
      rcases Nat.lt_or_ge k 360 with h1 | h1
      · exact hp k h1
      · have : k = 360 := by omega
        rw [this]; exact hp360
    have hA' : ∀ id', Event.runsRead id' (.ok RunApplied) ∉
        pendingEvents (w.runsRead id) id 0 361 :=
      fun id' h => not_pending_applied (runsRead_mem_pendingEvents hp' h)
    rw [h]
    simp [deleteCount, countP_isDelete_println, countP_isDelete_comp_println, countP_isDelete_pendingEvents, Event.isDelete,
      hA']
  · rw [h]
    simp [deleteCount, countP_isDelete_println, countP_isDelete_comp_println, countP_isDelete_pendingEvents, Event.isDelete,
      hA, hE, hR, hN, hW, hC, ne1, ne2, h0]
  · rw [h]
    simp [deleteCount, countP_isDelete_println, countP_isDelete_comp_println, countP_isDelete_pendingEvents, Event.isDelete,
      hA, hE, hR, hN, hW, hC, ne1, ne2, h0]

/-- Witness of C8: in the run planning, planning, applied a read returned
applied, and the deletion is called. -/
theorem delete_iff_applied_read_witness :
    (∃ runID, Event.runsRead runID (.ok RunApplied) ∈
      (main ⟨"o", "w"⟩ (envOf none none (some "t")) (pendingThen 2 "applied")).trace) ∧
    0 < deleteCount
      (main ⟨"o", "w"⟩ (envOf none none (some "t")) (pendingThen 2 "applied")).trace :=
  have h : ∃ runID, Event.runsRead runID (.ok RunApplied) ∈
      (main ⟨"o", "w"⟩ (envOf none none (some "t")) (pendingThen 2 "applied")).trace :=
    ⟨"run-1", by rw [main_planning_planning_applied]; decide⟩
  ⟨h, (delete_iff_applied_read ⟨"o", "w"⟩ (envOf none none (some "t"))
    (pendingThen 2 "applied")).1.2 h⟩

/-- Counterexample to C9: with the argument `-h`, `flag.Parse` prints the usage
and ends the process with exit status 0; no lookup, run creation, read or
deletion has been made. -/
theorem help_flag_exit_zero_counterexample :
    (program ["-h"] (envOf none none none) (pendingThen 0 "applied")).status = 0 ∧
    (program ["-h"] (envOf none none none) (pendingThen 0 "applied")).trace = [] := by
  decide

/-- C9, amended: the process ends with exit status 0 if and only if either
`flag.Parse` ends it after printing the usage for `-h` or `-help`, or the flags
parse, the configuration is resolved and the calls to the remote service are,
in this order, a successful lookup, a successful run creation, at most 360
successful reads with statuses neither applied nor errored followed by a read
returning applied, and a successful deletion.  Every other execution ends with
a non-zero status: 2 with an empty trace when the flags do not parse, 1 through
a fatal log call otherwise; and an unresolved configuration, a failed call, an
errored status and an exceeded iteration cap (361 sleeps) each give status 1. -/
theorem exit_zero_iff_help_or_all_steps_succeed (args : List String) (env : Environ)
    (w : World) :
    ((program args env w).status = 0 ↔
      flagParse args ⟨"", ""⟩ = .help ∨
      ∃ flags, flagParse args ⟨"", ""⟩ = .ok flags ∧ ConfigResolved flags env ∧
        ∃ (org ws wsh id : String) (pend : List (Reply RunStatus)),
          pend.length ≤ 360 ∧ (∀ r, r ∈ pend → Pending r) ∧
          networkCalls (program args env w).trace =
            [.workspacesRead org ws (.ok wsh), .runsCreate wsh (.ok id)] ++
              (pend ++ [Reply.ok RunApplied]).map (Event.runsRead id) ++
              [.workspacesDelete org ws (.ok ())]) ∧
    ((program args env w).status = 0 ∨
      ((program args env w).status = 2 ∧ (program args env w).trace = [] ∧
        ∃ msg, flagParse args ⟨"", ""⟩ = .failed msg) ∨
      ((program args env w).status = 1 ∧
        ∃ flags f, flagParse args ⟨"", ""⟩ = .ok flags ∧ (main flags env w).fatal = some f)) ∧
    (∀ flags, flagParse args ⟨"", ""⟩ = .ok flags → ¬ ConfigResolved flags env →
      (program args env w).status = 1) ∧
    (∀ e, e ∈ (program args env w).trace → e.failed = true →
      (program args env w).status = 1) ∧
    (∀ runID, Event.runsRead runID (.ok RunErrored) ∈ (program args env w).trace →
      (program args env w).status = 1) ∧
    ((sleeps (program args env w).trace).length = 361 → (program args env w).status = 1) := by
  cases hparse : flagParse args ⟨"", ""⟩ with
  | help =>
    have hprog : program args env w = ⟨[], 0⟩ := by simp [program, hparse]
    rw [hprog]
    refine ⟨by simp, Or.inl rfl, (fun flags hf => by cases hf), by simp, by simp, ?_⟩
    intro h; simp [sleeps] at h
  | failed msg =>
    have hprog : program args env w = ⟨[], 2⟩ := by simp [program, hparse]
    rw [hprog]
    refine ⟨by simp, Or.inr (Or.inl ⟨rfl, rfl, msg, rfl⟩), (fun flags hf => by cases hf),
      by simp, by simp, ?_⟩
    intro h; simp [sleeps] at h
  | ok flags =>
    have hprog : program args env w =
        ⟨(main flags env w).trace, (main flags env w).exitStatus⟩ := by
      simp [program, hparse]
    rw [hprog]
    obtain ⟨hiff, hdich, hcfg, hfail, herr, -⟩ := main_exit_zero_iff flags env w
    refine ⟨?_, ?_, ?_, hfail, herr, main_cap_exceeded_exit flags env w⟩
    · constructor
      · intro h0
        exact Or.inr ⟨flags, rfl, hiff.1 h0⟩
      · rintro (h | ⟨flags', hf, hrest⟩)
        · cases h
        · cases hf
          exact hiff.2 hrest
    · rcases hdich with ⟨h0, -⟩ | ⟨h1, f, hf⟩
      · exact Or.inl h0
      · exact Or.inr (Or.inr ⟨h1, flags, f, rfl, hf⟩)
    · intro flags' hf hnot
      cases hf
      exact hcfg hnot

/-- Witness of C9, amended: both names given on the command line, a token, and
the run planning, planning, applied: exit status 0 after lookup, creation, three
reads and the deletion. -/
theorem exit_zero_iff_help_or_all_steps_succeed_witness :
    (program ["--organization", "o", "-workspace=w"] (envOf none none (some "t"))
      (pendingThen 2 "applied")).status = 0 ∧
    (flagParse ["--organization", "o", "-workspace=w"] ⟨"", ""⟩ = .help ∨
      ∃ flags, flagParse ["--organization", "o", "-workspace=w"] ⟨"", ""⟩ = .ok flags ∧
        ConfigResolved flags (envOf none none (some "t")) ∧
        ∃ (org ws wsh id : String) (pend : List (Reply RunStatus)),
          pend.length ≤ 360 ∧ (∀ r, r ∈ pend → Pending r) ∧
          networkCalls (program ["--organization", "o", "-workspace=w"]
              (envOf none none (some "t")) (pendingThen 2 "applied")).trace =
            [.workspacesRead org ws (.ok wsh), .runsCreate wsh (.ok id)] ++
              (pend ++ [Reply.ok RunApplied]).map (Event.runsRead id) ++
              [.workspacesDelete org ws (.ok ())]) :=
  have hparse : flagParse ["--organization", "o", "-workspace=w"] ⟨"", ""⟩ = .ok ⟨"o", "w"⟩ := by
    decide
  have h : (program ["--organization", "o", "-workspace=w"] (envOf none none (some "t"))
      (pendingThen 2 "applied")).status = 0 := by
    simp only [program, hparse]
    rw [main_planning_planning_applied]; rfl
  ⟨h, (exit_zero_iff_help_or_all_steps_succeed ["--organization", "o", "-workspace=w"]
    (envOf none none (some "t")) (pendingThen 2 "applied")).1.1 h⟩

/-- C10: the values logged by the `Destroying ...` lines are, in order,
0, 10, 20, ..., one for each read with a status neither applied nor errored:
the `k`-th logged value is `10 * (k - 1)`; no logged value exceeds 3600, and
3600 is logged when the first 361 reads are all of that kind. -/
theorem logged_elapsed_seconds (w : World) (organizationName workspaceName runID : String) :
    logged (pollAndDelete w organizationName workspaceName runID).trace =
      (List.range ((readReplies (pollAndDelete w organizationName workspaceName runID).trace).countP
        (fun r => decide (Pending r)))).map (fun k => 10 * k) ∧
    (∀ k, 1 ≤ k → k ≤ (logged (pollAndDelete w organizationName workspaceName runID).trace).length →
      (logged (pollAndDelete w organizationName workspaceName runID).trace)[k - 1]? =
        some (10 * (k - 1))) ∧
    (∀ v, v ∈ logged (pollAndDelete w organizationName workspaceName runID).trace → v ≤ 3600) ∧
    ((∀ k, k < 361 → Pending (w.runsRead runID k)) →
      3600 ∈ logged (pollAndDelete w organizationName workspaceName runID).trace) := by
  have hA : ¬ Pending (Reply.ok RunApplied) := not_pending_applied
  have hE : ¬ Pending (Reply.ok RunErrored) := not_pending_errored
  -- the logged values are the first `j` multiples of 10, one for each pending read
  have key : ∃ j, j ≤ 361 ∧
      logged (pollAndDelete w organizationName workspaceName runID).trace =
        (List.range j).map (fun k => 10 * k) ∧
      (readReplies (pollAndDelete w organizationName workspaceName runID).trace).countP
        (fun r => decide (Pending r)) = j ∧
      ((∀ k, k < 361 → Pending (w.runsRead runID k)) → j = 361) := by
    obtain ⟨m, hm, hp, hpd⟩ := pollAndDelete_cases w organizationName workspaceName runID
    have hnot : ∀ r, ¬ Pending r → w.runsRead runID m = r →
        (∀ k, k < 361 → Pending (w.runsRead runID k)) → m = 361 := by
      intro r hr hmr hall
      exact absurd (hmr ▸ hall m (by omega)) hr
    rcases hpd with ⟨err, hr, hpd⟩ | ⟨hr, hpd⟩ | ⟨hm360, hp360, hpd⟩ | ⟨err, hr, -, hpd⟩ |
      ⟨hr, -, hpd⟩
    · refine ⟨m, by omega, ?_, ?_, hnot _ (not_pending_error err) hr⟩
      · rw [hpd]
        simp only [logged_append, logged_pendingEvents]
        simp [logged, Event.loggedValue?]
      · rw [hpd]
        simp only [readReplies_append, readReplies_pendingEvents, List.countP_append,
          countP_pending_range _ m hp]
        simp [readReplies, Event.readReply?, not_pending_error]
    · refine ⟨m, by omega, ?_, ?_, hnot _ hE hr⟩
      · rw [hpd]
        simp only [logged_append, logged_pendingEvents]
        simp [logged, Event.loggedValue?]
      · rw [hpd]
        simp only [readReplies_append, readReplies_pendingEvents, List.countP_append,
          countP_pending_range _ m hp]
        simp [readReplies, Event.readReply?, hE]
    · subst hm360
      have hp' : ∀ k, k < 361 → Pending (w.runsRead runID k) := by
        intro k hk
        rcases Nat.lt_or_ge k 360 with h1 | h1
        · exact hp k h1
        · have : k = 360 := by omega
          rw [this]; exact hp360
      refine ⟨361, le_refl _, ?_, ?_, fun _ => rfl⟩
      · rw [hpd]
        simp only [logged_pendingEvents]
        simp
      · rw [hpd]
        simp only [readReplies_pendingEvents]
        exact countP_pending_range _ 361 hp'
    · refine ⟨m, by omega, ?_, ?_, hnot _ hA hr⟩
      · rw [hpd]
        simp only [logged_append, logged_pendingEvents]
        simp [logged, Event.loggedValue?]
      · rw [hpd]
        simp only [readReplies_append, readReplies_pendingEvents, List.countP_append,
          countP_pending_range _ m hp]
        simp [readReplies, Event.readReply?, hA]
    · refine ⟨m, by omega, ?_, ?_, hnot _ hA hr⟩
      · rw [hpd]
        simp only [logged_append, logged_pendingEvents]
        simp [logged, Event.loggedValue?]
      · rw [hpd]
        simp only [readReplies_append, readReplies_pendingEvents, List.countP_append,
          countP_pending_range _ m hp]
        simp [readReplies, Event.readReply?, hA]
  obtain ⟨j, hj, hlog, hcount, hfull⟩ := key
  refine ⟨by rw [hcount, hlog], ?_, ?_, ?_⟩
  · intro k hk1 hk2
    rw [hlog] at hk2 ⊢
    simp only [List.length_map, List.length_range] at hk2
    simp [List.getElem?_map, List.getElem?_range (show k - 1 < j by omega)]
  · intro v hv
    rw [hlog] at hv
    obtain ⟨k, hk, rfl⟩ := List.mem_map.1 hv
    have := List.mem_range.1 hk
    omega
  · intro hall
    rw [hlog, hfull hall]
    exact List.mem_map.2 ⟨360, List.mem_range.2 (by omega), rfl⟩

/-- Witness of C10: a run that is read as planning 361 times logs 3600. -/
theorem logged_elapsed_seconds_witness :
    (∀ k, k < 361 → Pending ((pendingThen 361 "applied").runsRead "run-1" k)) ∧
    3600 ∈ logged (pollAndDelete (pendingThen 361 "applied") "o" "w" "run-1").trace :=
  ⟨pendingThen_pending 361 "applied" "run-1",
    (logged_elapsed_seconds (pendingThen 361 "applied") "o" "w" "run-1").2.2.2
      (pendingThen_pending 361 "applied" "run-1")⟩

end TfcDelete
